import Mathlib

/-!
# Student Marks System (script.js): roster operations

A shallow embedding of the class StudentMarksSystem of
"Student management system/script.js" and of the runtime built-ins it calls
(String.prototype.trim, parseInt, Array.prototype.find / findIndex / sort / pop / push,
Math.max, Number.prototype.toFixed, String.prototype.toLowerCase), followed by theorems
about the roster it maintains.

Conventions of the embedding:

* a JavaScript string is a Lean String (a sequence of Unicode scalar values);
* a marks value is an Int: every marks value the program stores is either a literal of the
  sample data or a result of parseInt that passed the isNaN test, hence an integral Number
  (negative zero is identified with zero);
* the quotient computed by showAverage is an IEEE-754 binary64 number; it is represented
  exactly, as a natural mantissa and a binary exponent;
* the DOM is reduced to what the script reads back or writes: the tr elements below the table
  body in document order (a name is written into its row as markup, so a row may contain
  further tr elements), the set of highlighted tr elements, the total-count text and the
  results panel;
* the timer started by showResult is the event hideResults, which may occur at any point.
-/

namespace JS

/-- WhiteSpace and LineTerminator code points of ECMAScript, the characters removed by
String.prototype.trim and skipped by parseInt. -/
def isWhiteSpace (c : Char) : Bool :=
  let n := c.toNat
  n == 0x09 || n == 0x0A || n == 0x0B || n == 0x0C || n == 0x0D || n == 0x20 || n == 0xA0 ||
  n == 0x1680 || (0x2000 ≤ n && n ≤ 0x200A) || n == 0x2028 || n == 0x2029 || n == 0x202F ||
  n == 0x205F || n == 0x3000 || n == 0xFEFF

/-- Leading white space removed. -/
def trimStart (cs : List Char) : List Char := cs.dropWhile isWhiteSpace

/-- Trailing white space removed. -/
def trimEnd (cs : List Char) : List Char := (cs.reverse.dropWhile isWhiteSpace).reverse

/-- String.prototype.trim. -/
def trim (s : String) : String := ⟨trimEnd (trimStart s.data)⟩

/-- Value of a character as a digit, letters counting from ten as in parseInt. -/
def digitValue (c : Char) : Option Nat :=
  let n := c.toNat
  if 48 ≤ n ∧ n ≤ 57 then some (n - 48)
  else if 97 ≤ n ∧ n ≤ 122 then some (n - 97 + 10)
  else if 65 ≤ n ∧ n ≤ 90 then some (n - 65 + 10)
  else none

/-- Whether the character is a digit of the given radix. -/
def isRadixDigit (radix : Nat) (c : Char) : Bool :=
  match digitValue c with
  | some d => decide (d < radix)
  | none => false

/-- Sign step of parseInt: a leading minus or plus sign is consumed. -/
def splitSign : List Char → Bool × List Char
  | '-' :: rest => (true, rest)
  | '+' :: rest => (false, rest)
  | cs => (false, cs)

/-- Radix step of parseInt called without a radix: a leading 0x or 0X selects radix 16 and is
consumed, otherwise the radix is 10. -/
def splitRadix : List Char → Nat × List Char
  | '0' :: 'x' :: rest => (16, rest)
  | '0' :: 'X' :: rest => (16, rest)
  | cs => (10, cs)

/-- Mathematical integer written by a digit sequence in the given radix. -/
def digitsValue (radix : Nat) (ds : List Char) : Nat :=
  ds.foldl (fun acc c => acc * radix + (digitValue c).getD 0) 0

/-- The global function parseInt applied to a string, without radix argument. The result none
stands for NaN. The longest run of digits after white space, sign and radix marker is read and
whatever follows it is ignored. (The conversion of the integer to a Number rounds values beyond
2^53; such values are far outside the range the caller accepts.) -/
def parseInt (s : String) : Option Int :=
  let (negative, afterSign) := splitSign (trimStart s.data)
  let (radix, body) := splitRadix afterSign
  let digits := body.takeWhile (isRadixDigit radix)
  if digits.isEmpty then none
  else
    let value : Int := (digitsValue radix digits : Nat)
    some (if negative then -value else value)

/-- Array.prototype.findIndex: index of the first element satisfying the predicate, -1 when
there is none. -/
def findIndex {α : Type} (p : α → Bool) : List α → Int
  | [] => -1
  | x :: xs => if p x then 0 else if findIndex p xs < 0 then -1 else findIndex p xs + 1

/-- Math.max applied to a spread argument list; none stands for -Infinity, the value on no
arguments. -/
def mathMax (xs : List Int) : Option Int :=
  xs.foldl (fun acc x => match acc with
    | none => some x
    | some a => some (max a x)) none

/-- Lower-casing restricted to the ASCII letters. -/
def asciiLower (s : String) : String :=
  ⟨s.data.map (fun c => if 65 ≤ c.toNat ∧ c.toNat ≤ 90 then Char.ofNat (c.toNat + 32) else c)⟩

/-- Whether every character of the string is an ASCII character. -/
def isAscii (s : String) : Bool := s.data.all (fun c => decide (c.toNat < 128))

/-- Number of places at which the characters "<tr" are written in a text. -/
def countRowTags : List Char → Nat
  | [] => 0
  | c :: rest => (if c = '<' ∧ rest.take 2 = ['t', 'r'] then 1 else 0) + countRowTags rest

/-- Number of binary digits of a natural number. -/
def bitLength : Nat → Nat → Nat
  | 0, _ => 0
  | fuel + 1, n => if n = 0 then 0 else bitLength fuel (n / 2) + 1

/-- A finite non-negative binary64 value: mantissa times two to the exponent. -/
structure Float64 where
  mantissa : Nat
  exponent : Int
deriving DecidableEq, Repr

/-- Round to nearest, ties to even, of the fraction num / den to an integer. -/
def roundHalfEven (num den : Nat) : Nat :=
  let q := num / den
  let r := num % den
  if 2 * r < den then q
  else if den < 2 * r then q + 1
  else if q % 2 = 0 then q else q + 1

/-- The binary exponent shift k of a quotient a / b of positive integers: the integer with
2^52 ≤ (a / b) * 2^k < 2^53, found from the bit lengths of a and b. -/
def binaryShift (a b : Nat) : Int :=
  let k0 : Int := 52 + (bitLength b b : Int) - (bitLength a a : Int)
  if a * 2 ^ k0.toNat < 2 ^ 52 * (b * 2 ^ (-k0).toNat) then k0 + 1 else k0

/-- The binary64 quotient a / b of two non-negative integers (b positive), as the Number
division operator computes it: the exact quotient rounded to 53 significant bits, ties to even.
The exponent range is not bounded; the value is the binary64 result whenever the exact quotient
lies in the normal range, which holds for every quotient of a marks total by a roster length. -/
def divide (a b : Nat) : Float64 :=
  if a = 0 then ⟨0, 0⟩
  else
    ⟨roundHalfEven (a * 2 ^ (binaryShift a b).toNat) (b * 2 ^ (-binaryShift a b).toNat),
      -binaryShift a b⟩

/-- The integer n of Number.prototype.toFixed(1): the integer for which n / 10 is closest to
the value, the larger one when two are equally close. -/
def toFixedDigits (x : Float64) : Nat :=
  if 0 ≤ x.exponent then 10 * x.mantissa * 2 ^ x.exponent.toNat
  else (20 * x.mantissa + 2 ^ (-x.exponent).toNat) / (2 * 2 ^ (-x.exponent).toNat)

/-- Whether the binary64 value x is smaller than the exact quotient a / b. -/
abbrev Float64.below (x : Float64) (a b : Nat) : Prop :=
  if 0 ≤ x.exponent then x.mantissa * 2 ^ x.exponent.toNat * b < a
  else x.mantissa * b < a * 2 ^ (-x.exponent).toNat

/-- Decimal text of n / 10 with one fractional digit. -/
def oneDecimal (n : Nat) : String :=
  toString (n / 10) ++ "." ++ toString (n % 10)

/-- Number.prototype.toFixed(1) on a binary64 value given by sign and magnitude (magnitude
below 10^21, where toFixed uses fixed notation). -/
def toFixed (negative : Bool) (x : Float64) : String :=
  (if negative then "-" else "") ++ oneDecimal (toFixedDigits x)

end JS

/-- The parts of the browser that are not transcribed. String.prototype.toLowerCase maps by
the Unicode case tables; on ASCII strings it lowers exactly the letters A to Z. The HTML parser
behind the innerHTML setter enters only through nestedRows: the number of tr elements that
parsing a name inside the first cell of a table row creates within that row. A name without the
character < is parsed as text and creates none. -/
structure Runtime where
  toLowerCase : String → String
  ascii : ∀ s : String, JS.isAscii s = true → toLowerCase s = JS.asciiLower s
  nestedRows : String → Nat
  plain : ∀ name : String, ¬ '<' ∈ name.data → nestedRows name = 0

/-- A runtime whose lower-casing touches the ASCII letters only and whose parser makes one
nested tr element for every tr start tag written in a name. It agrees with a browser on names
without markup and on a name that is one complete table of one row. -/
def asciiRuntime : Runtime where
  toLowerCase := JS.asciiLower
  ascii := fun _ _ => rfl
  nestedRows := fun name => JS.countRowTags name.data
  plain := by
    intro name h
    show JS.countRowTags name.data = 0
    generalize name.data = cs at h
    induction cs with
    | nil => rfl
    | cons c rest ih =>
      have hc : c ≠ '<' := fun hc => h (by rw [hc]; exact List.mem_cons_self _ _)
      have hrest : ¬ '<' ∈ rest := fun hr => h (List.mem_cons_of_mem _ hr)
      simp [JS.countRowTags, hc, ih hrest]

/-- One entry of the students array: an object with fields name and marks. -/
structure Student where
  name : String
  marks : Int
deriving DecidableEq, Repr

/-- The second argument of showResult. -/
inductive ResultType where
  | success
  | error
deriving DecidableEq, Repr

/-- A tr element below studentsTbody: the index of the student whose row it is or inside
whose row it lies, and whether it lies inside that row (created from markup in the name). -/
structure TableRow where
  student : Nat
  nested : Bool
deriving DecidableEq, Repr

/-- State of a StudentMarksSystem object together with the DOM nodes it owns. -/
structure StudentMarksSystem where
  originalStudents : List Student
  students : List Student
  /-- the tr elements below studentsTbody in document order, what querySelectorAll returns for
  the selector tr, as of the last renderTable -/
  rows : List TableRow
  /-- indices, in rows, of the tr elements that carry the class highlight -/
  highlighted : List Nat
  /-- textContent of totalStudentsEl -/
  totalText : String
  /-- textContent of resultText -/
  resultText : String
  /-- colouring of resultsDisplay chosen by the last showResult -/
  resultType : ResultType
  /-- whether resultsDisplay carries the class hidden -/
  resultHidden : Bool
deriving DecidableEq, Repr

/-- The literal array assigned to originalStudents by the constructor. -/
def sampleStudents : List Student :=
  [⟨"Amit", 85⟩, ⟨"Priya", 92⟩, ⟨"Rahul", 76⟩, ⟨"Sneha", 88⟩, ⟨"Karan", 95⟩]

namespace StudentMarksSystem

/-- The tr elements produced by the forEach of renderTable for the students from index i on:
for each student the appended row, followed by the tr elements that assigning the template
with the name to innerHTML created inside it. The marks are written as a number and create
none. -/
def renderRows (rt : Runtime) : Nat → List Student → List TableRow
  | _, [] => []
  | i, student :: rest =>
    TableRow.mk i false ::
      (List.replicate (rt.nestedRows student.name) (TableRow.mk i true)
        ++ renderRows rt (i + 1) rest)

/-- Body of renderTable: the table body is emptied and refilled from the students array. -/
def renderTable (rt : Runtime) (s : StudentMarksSystem) : StudentMarksSystem :=
  { s with rows := renderRows rt 0 s.students, highlighted := [] }

/-- Body of updateTotalCount. -/
def updateTotalCount (s : StudentMarksSystem) : StudentMarksSystem :=
  { s with totalText := "Total students: " ++ toString s.students.length }

/-- Body of clearHighlights. -/
def clearHighlights (s : StudentMarksSystem) : StudentMarksSystem :=
  { s with highlighted := [] }

/-- Body of showResult; the timer it starts is the event hideResults. The type argument, which
defaults to success in the source, is passed at every call. -/
def showResult (s : StudentMarksSystem) (message : String) (type : ResultType) :
    StudentMarksSystem :=
  { s with resultText := message, resultType := type, resultHidden := false }

/-- Body of hideResults. -/
def hideResults (s : StudentMarksSystem) : StudentMarksSystem :=
  clearHighlights { s with resultHidden := true }

/-- The constant highest of showHighest. -/
def highest (s : StudentMarksSystem) : Option Int :=
  JS.mathMax (s.students.map (fun student => student.marks))

/-- The constant highestStudent of showHighest; none is undefined. -/
def highestStudent (s : StudentMarksSystem) : Option Student :=
  s.students.find? (fun student => some student.marks == s.highest)

/-- The constant highestIndex of showHighest. -/
def highestIndex (s : StudentMarksSystem) : Int :=
  JS.findIndex (fun student => some student.marks == s.highest) s.students

/-- The class highlight added to rows[i], the i-th tr element below the table body, when
that element exists. -/
def highlightRow (s : StudentMarksSystem) (i : Int) : StudentMarksSystem :=
  if 0 ≤ i ∧ i < s.rows.length then { s with highlighted := i.toNat :: s.highlighted } else s

/-- Body of showHighest. Reading the name of an undefined highestStudent throws and ends the
handler at that statement. -/
def showHighest (s : StudentMarksSystem) : StudentMarksSystem :=
  if s.students.length = 0 then s.showResult "No students to display!" ResultType.error
  else
    let s1 := (s.clearHighlights).highlightRow s.highestIndex
    match s.highestStudent, s.highest with
    | some student, some h =>
      s1.showResult ("Highest marks: " ++ student.name ++ " with " ++ toString h ++ " marks")
        ResultType.success
    | _, _ => s1

/-- The constant total of showAverage. -/
def total (s : StudentMarksSystem) : Int :=
  s.students.foldl (fun sum student => sum + student.marks) 0

/-- The constant average of showAverage: the text of (total / length).toFixed(1). -/
def average (s : StudentMarksSystem) : String :=
  JS.toFixed (decide (s.total < 0)) (JS.divide s.total.natAbs s.students.length)

/-- Body of showAverage. -/
def showAverage (s : StudentMarksSystem) : StudentMarksSystem :=
  if s.students.length = 0 then
    s.showResult "No students to calculate average!" ResultType.error
  else
    (s.clearHighlights).showResult ("Class average: " ++ s.average ++ " marks")
      ResultType.success

/-- Array.prototype.sort with the comparator (a, b) => b.marks - a.marks. The sort is stable
(ECMAScript 2019), and a stable sort by a consistent comparator has a single possible result;
it is computed here by insertion. -/
def sortDescending (l : List Student) : List Student :=
  l.insertionSort (fun a b => b.marks ≤ a.marks)

/-- Body of sortByMarks. -/
def sortByMarks (rt : Runtime) (s : StudentMarksSystem) : StudentMarksSystem :=
  if s.students.length = 0 then s.showResult "No students to sort!" ResultType.error
  else
    let s1 := { s with students := sortDescending s.students }
    ((s1.renderTable rt).clearHighlights).showResult
      "Students sorted by marks (highest to lowest)"
      ResultType.success

/-- Body of resetSample. -/
def resetSample (rt : Runtime) (s : StudentMarksSystem) : StudentMarksSystem :=
  let s1 := { s with students := s.originalStudents }
  (((s1.renderTable rt).updateTotalCount).clearHighlights).showResult "Sample data restored"
    ResultType.success

/-- Body of removeLast; pop removes the last element and returns it, and the array is empty
exactly when there is no last element. -/
def removeLast (rt : Runtime) (s : StudentMarksSystem) : StudentMarksSystem :=
  match s.students.getLast? with
  | none => s.showResult "No students to remove!" ResultType.error
  | some removedStudent =>
    let s1 := { s with students := s.students.dropLast }
    (((s1.renderTable rt).updateTotalCount).clearHighlights).showResult
      ("Removed " ++ removedStudent.name ++ " from the list") ResultType.success

/-- The constant existingStudent of addStudent: the first student whose lower-cased name equals
the lower-cased candidate name; none is undefined. -/
def existingStudent (rt : Runtime) (s : StudentMarksSystem) (name : String) : Option Student :=
  s.students.find? (fun student => rt.toLowerCase student.name == rt.toLowerCase name)

/-- Body of addStudent; the two arguments are the values of the name and marks inputs at the
time the form is submitted. -/
def addStudent (rt : Runtime) (s : StudentMarksSystem) (nameValue marksValue : String) :
    StudentMarksSystem :=
  let name := JS.trim nameValue
  let marks := JS.parseInt marksValue
  if name = "" then s.showResult "Please enter a student name!" ResultType.error
  else
    match marks with
    | none => s.showResult "Please enter valid marks (0-100)!" ResultType.error
    | some marks =>
      if marks < 0 ∨ marks > 100 then
        s.showResult "Please enter valid marks (0-100)!" ResultType.error
      else
        if (s.existingStudent rt name).isSome then
          s.showResult "A student with this name already exists!" ResultType.error
        else
          let s1 := { s with students := s.students ++ [Student.mk name marks] }
          (((s1.renderTable rt).updateTotalCount).clearHighlights).showResult
            ("Added " ++ name ++ " with " ++ toString marks ++ " marks to the list")
            ResultType.success

/-- What the page markup fixes before the script runs: the initial content of the results
panel. -/
structure Page where
  resultText : String
  resultType : ResultType
  resultHidden : Bool

/-- The constructor followed by init. -/
def create (rt : Runtime) (page : Page) : StudentMarksSystem :=
  let s : StudentMarksSystem :=
    { originalStudents := sampleStudents
      students := sampleStudents
      rows := []
      highlighted := []
      totalText := ""
      resultText := page.resultText
      resultType := page.resultType
      resultHidden := page.resultHidden }
  (s.renderTable rt).updateTotalCount

end StudentMarksSystem

/-- The listeners bound by bindEventListeners, and the expiry of the showResult timer. -/
inductive Event where
  | showHighest
  | showAverage
  | sortByMarks
  | resetSample
  | removeLast
  | addStudent (nameValue marksValue : String)
  | hideResults
deriving DecidableEq, Repr

/-- The handler run for an event. -/
def Event.handle (rt : Runtime) (s : StudentMarksSystem) : Event → StudentMarksSystem
  | Event.showHighest => s.showHighest
  | Event.showAverage => s.showAverage
  | Event.sortByMarks => s.sortByMarks rt
  | Event.resetSample => s.resetSample rt
  | Event.removeLast => s.removeLast rt
  | Event.addStudent nameValue marksValue => s.addStudent rt nameValue marksValue
  | Event.hideResults => s.hideResults

/-- The state after the page has loaded and the given events were handled in order. -/
def run (rt : Runtime) (page : StudentMarksSystem.Page) (events : List Event) :
    StudentMarksSystem :=
  events.foldl (Event.handle rt) (StudentMarksSystem.create rt page)

/-- A page whose results panel starts empty and hidden. -/
def blankPage : StudentMarksSystem.Page := ⟨"", ResultType.success, true⟩

/-- The roster invariants: names pairwise distinct after lower-casing, marks within 0..100. -/
def RosterInvariant (rt : Runtime) (students : List Student) : Prop :=
  students.Pairwise (fun a b => rt.toLowerCase a.name ≠ rt.toLowerCase b.name) ∧
  ∀ st ∈ students, 0 ≤ st.marks ∧ st.marks ≤ 100

/-! ## Definitions used to state the properties -/

/-- The system right after the page has loaded, results panel empty and hidden. -/
def sampleSystem : StudentMarksSystem := StudentMarksSystem.create asciiRuntime blankPage

/-- A roster with a tie, reached by re-entering Sneha with the marks of Priya: Amit/85,
Priya/92, Rahul/76, Sneha/92, Karan/95. -/
def tiedSystem : StudentMarksSystem :=
  run asciiRuntime blankPage
    [Event.removeLast, Event.removeLast, Event.addStudent "Sneha" "92",
      Event.addStudent "Karan" "95"]

/-- The mean of the specification in tenths: total / count rounded to one decimal place, a tie
going away from zero (total is not negative). -/
def halfAwayTenths (total count : Nat) : Nat := (20 * total + count) / (2 * count)

/-- Whether total / count lies exactly halfway between two one-decimal values, that is,
whether ten times the mean plus one half is an integer. -/
abbrev exactTie (total count : Nat) : Prop := (20 * total + count) % (2 * count) = 0

/-- The integer n chosen by toFixed(1) in showAverage: the shown average in tenths. -/
def StudentMarksSystem.averageTenths (s : StudentMarksSystem) : Nat :=
  JS.toFixedDigits (JS.divide s.total.natAbs s.students.length)

/-- Whether the binary64 quotient total / length computed by showAverage is smaller than the
exact mean. -/
abbrev StudentMarksSystem.quotientBelow (s : StudentMarksSystem) : Prop :=
  JS.Float64.below (JS.divide s.total.natAbs s.students.length) s.total.natAbs
    s.students.length

/-- The average text as the specification words it. -/
def specAverage (s : StudentMarksSystem) : String :=
  JS.oneDecimal (halfAwayTenths s.total.toNat s.students.length)

/-- Twenty students whose marks sum to 3, so that the mean is 0.15. -/
def tieStudents : List Student :=
  [⟨"A", 3⟩, ⟨"B", 0⟩, ⟨"C", 0⟩, ⟨"D", 0⟩, ⟨"E", 0⟩, ⟨"F", 0⟩, ⟨"G", 0⟩, ⟨"H", 0⟩, ⟨"I", 0⟩,
   ⟨"J", 0⟩, ⟨"K", 0⟩, ⟨"L", 0⟩, ⟨"M", 0⟩, ⟨"N", 0⟩, ⟨"O", 0⟩, ⟨"P", 0⟩, ⟨"Q", 0⟩, ⟨"R", 0⟩,
   ⟨"S", 0⟩, ⟨"T", 0⟩]

/-- Events that empty the sample roster and enter the twenty students of tieStudents. -/
def tieEvents : List Event :=
  List.replicate 5 Event.removeLast ++
    tieStudents.map (fun st => Event.addStudent st.name (toString st.marks))

/-- A name that is the markup of a table of one row. -/
def markupName : String := "<table><tr><td>x</td></tr></table>"

/-- Events that add a student with the markup name and marks 1, then Top with marks 100. -/
def markupEvents : List Event :=
  [Event.addStudent markupName "1", Event.addStudent "Top" "100"]

/-- The sample system after five removeLast calls: an empty roster. -/
def emptySystem : StudentMarksSystem :=
  (StudentMarksSystem.removeLast asciiRuntime)^[5] sampleSystem

/-- Events that leave four students with marks 0, 0, 0, 1: mean 0.25. -/
def quarterEvents : List Event :=
  List.replicate 5 Event.removeLast ++
    [Event.addStudent "A" "0", Event.addStudent "B" "0", Event.addStudent "C" "0",
      Event.addStudent "D" "1"]

/-- Events that leave four students with marks 87, 87, 87, 88: mean 87.25. -/
def threeQuarterEvents : List Event :=
  List.replicate 5 Event.removeLast ++
    [Event.addStudent "A" "87", Event.addStudent "B" "87", Event.addStudent "C" "87",
      Event.addStudent "D" "88"]

/-- Events that leave the two students Amit/85 and Karan/95. -/
def pairEvents : List Event :=
  List.replicate 4 Event.removeLast ++ [Event.addStudent "Karan" "95"]

/-! ## Effect of each handler on the students array -/

namespace StudentMarksSystem

theorem students_showResult (s : StudentMarksSystem) (m : String) (t : ResultType) :
    (s.showResult m t).students = s.students := rfl

theorem students_hideResults (s : StudentMarksSystem) : s.hideResults.students = s.students := rfl

theorem students_showHighest (s : StudentMarksSystem) : s.showHighest.students = s.students := by
  unfold showHighest highlightRow
  split
  · rfl
  · split <;> split <;> rfl

theorem students_showAverage (s : StudentMarksSystem) : s.showAverage.students = s.students := by
  unfold showAverage
  split <;> rfl

theorem students_sortByMarks (rt : Runtime) (s : StudentMarksSystem) :
    (s.sortByMarks rt).students = sortDescending s.students := by
  unfold sortByMarks
  split
  · rename_i h
    rw [students_showResult, List.length_eq_zero.mp h]
    rfl
  · rfl

theorem students_resetSample (rt : Runtime) (s : StudentMarksSystem) :
    (s.resetSample rt).students = s.originalStudents := rfl

theorem students_removeLast (rt : Runtime) (s : StudentMarksSystem) :
    (s.removeLast rt).students = s.students.dropLast := by
  unfold removeLast
  split
  · rename_i h
    rw [students_showResult, List.getLast?_eq_none_iff.mp h]
    rfl
  · rfl

end StudentMarksSystem

/-! ## The five outcomes of addStudent -/

namespace StudentMarksSystem

theorem addStudent_blank (rt : Runtime) (s : StudentMarksSystem) (nameValue marksValue : String)
    (hname : JS.trim nameValue = "") :
    s.addStudent rt nameValue marksValue
      = s.showResult "Please enter a student name!" ResultType.error := by
  simp [addStudent, hname]

theorem addStudent_nan (rt : Runtime) (s : StudentMarksSystem) (nameValue marksValue : String)
    (hname : JS.trim nameValue ≠ "") (hmarks : JS.parseInt marksValue = none) :
    s.addStudent rt nameValue marksValue
      = s.showResult "Please enter valid marks (0-100)!" ResultType.error := by
  simp [addStudent, hname, hmarks]

theorem addStudent_range (rt : Runtime) (s : StudentMarksSystem) (nameValue marksValue : String)
    (n : Int) (hname : JS.trim nameValue ≠ "") (hmarks : JS.parseInt marksValue = some n)
    (hn : n < 0 ∨ n > 100) :
    s.addStudent rt nameValue marksValue
      = s.showResult "Please enter valid marks (0-100)!" ResultType.error := by
  simp only [addStudent, hname, hmarks, if_false]
  rw [if_pos hn]

theorem addStudent_duplicate (rt : Runtime) (s : StudentMarksSystem)
    (nameValue marksValue : String) (n : Int) (hname : JS.trim nameValue ≠ "")
    (hmarks : JS.parseInt marksValue = some n) (h0 : 0 ≤ n) (h100 : n ≤ 100)
    (hdup : (s.existingStudent rt (JS.trim nameValue)).isSome = true) :
    s.addStudent rt nameValue marksValue
      = s.showResult "A student with this name already exists!" ResultType.error := by
  have hn : ¬ (n < 0 ∨ n > 100) := by omega
  simp only [addStudent, hname, hmarks, if_false]
  rw [if_neg hn]
  rw [if_pos hdup]

theorem addStudent_success (rt : Runtime) (s : StudentMarksSystem)
    (nameValue marksValue : String) (n : Int) (hname : JS.trim nameValue ≠ "")
    (hmarks : JS.parseInt marksValue = some n) (h0 : 0 ≤ n) (h100 : n ≤ 100)
    (hnew : (s.existingStudent rt (JS.trim nameValue)).isSome = false) :
    s.addStudent rt nameValue marksValue
      = { s with
          students := s.students ++ [Student.mk (JS.trim nameValue) n]
          rows := renderRows rt 0 (s.students ++ [Student.mk (JS.trim nameValue) n])
          highlighted := []
          totalText := "Total students: " ++ toString (s.students.length + 1)
          resultText := "Added " ++ JS.trim nameValue ++ " with " ++ toString n
            ++ " marks to the list"
          resultType := ResultType.success
          resultHidden := false } := by
  have hn : ¬ (n < 0 ∨ n > 100) := by omega
  simp only [addStudent, hname, hmarks, if_false]
  rw [if_neg hn]
  rw [if_neg (by simp [hnew])]
  simp [showResult, clearHighlights, updateTotalCount, renderTable]

theorem existingStudent_isSome_iff (rt : Runtime) (s : StudentMarksSystem) (name : String) :
    (s.existingStudent rt name).isSome = true ↔
      ∃ st ∈ s.students, rt.toLowerCase st.name = rt.toLowerCase name := by
  simp [existingStudent, List.find?_isSome]

/-- Case analysis of addStudent: it either reports an error and returns the state with only the
results panel changed, or appends the record made of the trimmed name and the parsed marks. -/
theorem addStudent_cases (rt : Runtime) (s : StudentMarksSystem) (nameValue marksValue : String) :
    (∃ m, s.addStudent rt nameValue marksValue = s.showResult m ResultType.error) ∨
    (∃ n : Int, JS.trim nameValue ≠ "" ∧ JS.parseInt marksValue = some n ∧ 0 ≤ n ∧ n ≤ 100 ∧
      (s.existingStudent rt (JS.trim nameValue)).isSome = false ∧
      (s.addStudent rt nameValue marksValue).resultType = ResultType.success ∧
      (s.addStudent rt nameValue marksValue).students
        = s.students ++ [Student.mk (JS.trim nameValue) n]) := by
  by_cases hname : JS.trim nameValue = ""
  · exact Or.inl ⟨_, addStudent_blank rt s nameValue marksValue hname⟩
  · cases hmarks : JS.parseInt marksValue with
    | none => exact Or.inl ⟨_, addStudent_nan rt s nameValue marksValue hname hmarks⟩
    | some n =>
      by_cases hn : n < 0 ∨ n > 100
      · exact Or.inl ⟨_, addStudent_range rt s nameValue marksValue n hname hmarks hn⟩
      · have h0 : 0 ≤ n := by omega
        have h100 : n ≤ 100 := by omega
        cases hdup : (s.existingStudent rt (JS.trim nameValue)).isSome with
        | true =>
          exact Or.inl ⟨_, addStudent_duplicate rt s nameValue marksValue n hname hmarks h0 h100 hdup⟩
        | false =>
          refine Or.inr ⟨n, hname, rfl, h0, h100, rfl, ?_, ?_⟩
          · rw [addStudent_success rt s nameValue marksValue n hname hmarks h0 h100 hdup]
          · rw [addStudent_success rt s nameValue marksValue n hname hmarks h0 h100 hdup]

end StudentMarksSystem

/-! ## Invariants of the event loop -/

theorem lower_Amit (rt : Runtime) : rt.toLowerCase "Amit" = "amit" := by
  rw [rt.ascii "Amit" (by decide)]; decide

theorem lower_amit (rt : Runtime) : rt.toLowerCase "amit" = "amit" := by
  rw [rt.ascii "amit" (by decide)]; decide

theorem lower_Priya (rt : Runtime) : rt.toLowerCase "Priya" = "priya" := by
  rw [rt.ascii "Priya" (by decide)]; decide

theorem lower_Rahul (rt : Runtime) : rt.toLowerCase "Rahul" = "rahul" := by
  rw [rt.ascii "Rahul" (by decide)]; decide

theorem lower_Sneha (rt : Runtime) : rt.toLowerCase "Sneha" = "sneha" := by
  rw [rt.ascii "Sneha" (by decide)]; decide

theorem lower_Karan (rt : Runtime) : rt.toLowerCase "Karan" = "karan" := by
  rw [rt.ascii "Karan" (by decide)]; decide

theorem lower_Neha (rt : Runtime) : rt.toLowerCase "Neha" = "neha" := by
  rw [rt.ascii "Neha" (by decide)]; decide

theorem sample_invariant (rt : Runtime) : RosterInvariant rt sampleStudents := by
  constructor
  · simp only [sampleStudents, List.pairwise_cons, List.mem_cons, List.mem_singleton,
      forall_eq_or_imp, forall_eq, lower_Amit, lower_Priya, lower_Rahul, lower_Sneha,
      lower_Karan]
    simp
  · intro st hst
    simp only [sampleStudents, List.mem_cons, List.mem_singleton, List.mem_nil_iff,
      or_false] at hst
    rcases hst with h | h | h | h | h <;> subst h <;> decide

theorem sortDescending_perm (l : List Student) : (StudentMarksSystem.sortDescending l).Perm l :=
  List.perm_insertionSort _ l

theorem RosterInvariant.of_perm (rt : Runtime) {l l' : List Student} (h : l'.Perm l)
    (hl : RosterInvariant rt l) : RosterInvariant rt l' := by
  refine ⟨?_, fun st hst => hl.2 st (h.subset hst)⟩
  exact (h.pairwise_iff (fun {a b} (hab : rt.toLowerCase a.name ≠ rt.toLowerCase b.name) =>
    Ne.symm hab)).mpr hl.1

theorem RosterInvariant.of_sublist (rt : Runtime) {l l' : List Student} (h : l'.Sublist l)
    (hl : RosterInvariant rt l) : RosterInvariant rt l' :=
  ⟨hl.1.sublist h, fun st hst => hl.2 st (h.subset hst)⟩

theorem RosterInvariant.append_new (rt : Runtime) {l : List Student} (name : String) (n : Int)
    (hl : RosterInvariant rt l) (h0 : 0 ≤ n) (h100 : n ≤ 100)
    (hnew : ∀ st ∈ l, rt.toLowerCase st.name ≠ rt.toLowerCase name) :
    RosterInvariant rt (l ++ [Student.mk name n]) := by
  constructor
  · rw [List.pairwise_append]
    refine ⟨hl.1, List.pairwise_singleton _ _, ?_⟩
    intro a ha b hb
    rw [List.mem_singleton] at hb
    subst hb
    exact hnew a ha
  · intro st hst
    rw [List.mem_append, List.mem_singleton] at hst
    rcases hst with h | h
    · exact hl.2 st h
    · subst h
      exact ⟨h0, h100⟩

theorem handle_originalStudents (rt : Runtime) (s : StudentMarksSystem) (e : Event) :
    (e.handle rt s).originalStudents = s.originalStudents := by
  cases e with
  | showHighest =>
    simp only [Event.handle, StudentMarksSystem.showHighest, StudentMarksSystem.highlightRow]
    split
    · rfl
    · split <;> split <;> rfl
  | showAverage =>
    simp only [Event.handle, StudentMarksSystem.showAverage]
    split <;> rfl
  | sortByMarks =>
    simp only [Event.handle, StudentMarksSystem.sortByMarks]
    split <;> rfl
  | resetSample => rfl
  | removeLast =>
    simp only [Event.handle, StudentMarksSystem.removeLast]
    split <;> rfl
  | addStudent nameValue marksValue =>
    simp only [Event.handle]
    rcases StudentMarksSystem.addStudent_cases rt s nameValue marksValue with ⟨m, hm⟩ | ⟨n, hname, hmarks, h0, h100, hnew, -, -⟩
    · rw [hm]; rfl
    · rw [StudentMarksSystem.addStudent_success rt s nameValue marksValue n hname hmarks h0 h100 hnew]
  | hideResults => rfl

theorem handle_invariant (rt : Runtime) (s : StudentMarksSystem) (e : Event)
    (horig : s.originalStudents = sampleStudents) (hinv : RosterInvariant rt s.students) :
    RosterInvariant rt (e.handle rt s).students := by
  cases e with
  | showHighest => simpa only [Event.handle, StudentMarksSystem.students_showHighest] using hinv
  | showAverage => simpa only [Event.handle, StudentMarksSystem.students_showAverage] using hinv
  | sortByMarks =>
    simp only [Event.handle, StudentMarksSystem.students_sortByMarks]
    exact RosterInvariant.of_perm rt (sortDescending_perm _) hinv
  | resetSample =>
    simp only [Event.handle, StudentMarksSystem.students_resetSample, horig]
    exact sample_invariant rt
  | removeLast =>
    simp only [Event.handle, StudentMarksSystem.students_removeLast]
    exact RosterInvariant.of_sublist rt (List.dropLast_sublist _) hinv
  | addStudent nameValue marksValue =>
    simp only [Event.handle]
    rcases StudentMarksSystem.addStudent_cases rt s nameValue marksValue with ⟨m, hm⟩ | ⟨n, -, -, h0, h100, hnew, -, hst⟩
    · rw [hm]; exact hinv
    · rw [hst]
      refine RosterInvariant.append_new rt _ n hinv h0 h100 ?_
      intro st hmem heq
      have := (StudentMarksSystem.existingStudent_isSome_iff rt s (JS.trim nameValue)).mpr
        ⟨st, hmem, heq⟩
      rw [hnew] at this
      exact Bool.noConfusion this
  | hideResults => exact hinv

theorem foldl_handle_invariant (rt : Runtime) (events : List Event) :
    ∀ s : StudentMarksSystem, s.originalStudents = sampleStudents →
      RosterInvariant rt s.students →
      (events.foldl (Event.handle rt) s).originalStudents = sampleStudents ∧
      RosterInvariant rt (events.foldl (Event.handle rt) s).students := by
  induction events with
  | nil => intro s horig hinv; exact ⟨horig, hinv⟩
  | cons e rest ih =>
    intro s horig hinv
    rw [List.foldl_cons]
    exact ih _ ((handle_originalStudents rt s e).trans horig) (handle_invariant rt s e horig hinv)

/-- C1: after the page has loaded and any finite sequence of events was handled (addStudent
with arbitrary field values, removeLast, sortByMarks, resetSample, and also the read-only
handlers), no two students have names that are equal after lower-casing and every marks value
is an integer between 0 and 100. -/
theorem roster_invariant_reachable (rt : Runtime) (page : StudentMarksSystem.Page)
    (events : List Event) :
    (run rt page events).students.Pairwise
        (fun a b => rt.toLowerCase a.name ≠ rt.toLowerCase b.name) ∧
      ∀ st ∈ (run rt page events).students, 0 ≤ st.marks ∧ st.marks ≤ 100 :=
  (foldl_handle_invariant rt events (StudentMarksSystem.create rt page) rfl
    (sample_invariant rt)).2

/-! ## resetSample and removeLast -/

theorem run_originalStudents (rt : Runtime) (page : StudentMarksSystem.Page)
    (events : List Event) : (run rt page events).originalStudents = sampleStudents :=
  (foldl_handle_invariant rt events (StudentMarksSystem.create rt page) rfl
    (sample_invariant rt)).1

theorem resetSample_idem (rt : Runtime) (s : StudentMarksSystem) :
    (s.resetSample rt).resetSample rt = s.resetSample rt := rfl

/-- C9: after the page has loaded and any finite sequence of events was handled, resetSample
leaves the students array equal to the sample data in its original order (Amit/85, Priya/92,
Rahul/76, Sneha/88, Karan/95); a second resetSample changes nothing; and originalStudents
still holds the sample data, before and after. -/
theorem reset_restores_sample (rt : Runtime) (page : StudentMarksSystem.Page)
    (events : List Event) :
    ((run rt page events).resetSample rt).students
        = [⟨"Amit", 85⟩, ⟨"Priya", 92⟩, ⟨"Rahul", 76⟩, ⟨"Sneha", 88⟩, ⟨"Karan", 95⟩] ∧
      ((run rt page events).resetSample rt).resetSample rt
        = (run rt page events).resetSample rt ∧
      (run rt page events).originalStudents = sampleStudents ∧
      ((run rt page events).resetSample rt).originalStudents = sampleStudents := by
  have h := run_originalStudents rt page events
  refine ⟨?_, resetSample_idem rt _, h, h⟩
  rw [StudentMarksSystem.students_resetSample, h]
  rfl

theorem students_iterate_removeLast (rt : Runtime) (s : StudentMarksSystem) (n : Nat) :
    ((StudentMarksSystem.removeLast rt)^[n] s).students
      = s.students.take (s.students.length - n) := by
  induction n with
  | zero => simp
  | succ n ih =>
    rw [Function.iterate_succ_apply', StudentMarksSystem.students_removeLast, ih,
      List.dropLast_eq_take, List.take_take, List.length_take]
    congr 1
    omega

theorem removeLast_of_getLast (rt : Runtime) (s : StudentMarksSystem) (r : Student)
    (h : s.students.getLast? = some r) :
    (s.removeLast rt).resultText = "Removed " ++ r.name ++ " from the list" ∧
      (s.removeLast rt).resultType = ResultType.success ∧
      s.students = (s.removeLast rt).students ++ [r] := by
  refine ⟨?_, ?_, ?_⟩
  · simp [StudentMarksSystem.removeLast, h, StudentMarksSystem.showResult]
  · simp [StudentMarksSystem.removeLast, h, StudentMarksSystem.showResult]
  · rw [StudentMarksSystem.students_removeLast]
    have hne : s.students ≠ [] := by
      intro hnil
      rw [hnil] at h
      exact Option.noConfusion h
    rw [List.getLast?_eq_getLast _ hne] at h
    have hr : s.students.getLast hne = r := Option.some.inj h
    rw [← hr]
    exact (List.dropLast_append_getLast hne).symm

theorem removeLast_of_nil (rt : Runtime) (s : StudentMarksSystem) (h : s.students = []) :
    (s.removeLast rt).resultText = "No students to remove!" ∧
      (s.removeLast rt).resultType = ResultType.error ∧ (s.removeLast rt).students = [] := by
  simp [StudentMarksSystem.removeLast, h, StudentMarksSystem.showResult]

theorem getLast?_take_succ {α : Type} (l : List α) (m : Nat) (hm : m < l.length) :
    (l.take (m + 1)).getLast? = l[m]? := by
  rw [List.getLast?_eq_getElem?, List.length_take, List.getElem?_take]
  have h1 : min (m + 1) l.length - 1 = m := by omega
  rw [h1, if_pos (Nat.lt_succ_self m)]

/-- C10: for a roster of any length k, empty included: for every n with 1 ≤ n ≤ k, the n-th
of n successive removeLast calls succeeds, removes exactly the record at position k - n + 1 of
the initial roster (index k - n counting from zero), which is the record named in its message
and the last one of the roster left by the first n - 1 calls, and leaves the first k - n
records in order; and the (k + 1)-th call reports the empty-roster error and leaves the
roster, which the k calls before it have emptied, empty. -/
theorem removeLast_repeated (rt : Runtime) (s : StudentMarksSystem) :
    (∀ n : Nat, 1 ≤ n → n ≤ s.students.length →
      ∃ removed : Student,
        s.students[s.students.length - n]? = some removed ∧
        ((StudentMarksSystem.removeLast rt)^[n - 1] s).students
          = ((StudentMarksSystem.removeLast rt)^[n] s).students ++ [removed] ∧
        ((StudentMarksSystem.removeLast rt)^[n] s).students
          = s.students.take (s.students.length - n) ∧
        ((StudentMarksSystem.removeLast rt)^[n] s).resultText
          = "Removed " ++ removed.name ++ " from the list" ∧
        ((StudentMarksSystem.removeLast rt)^[n] s).resultType = ResultType.success) ∧
    ((StudentMarksSystem.removeLast rt)^[s.students.length] s).students = [] ∧
    ((StudentMarksSystem.removeLast rt)^[s.students.length + 1] s).resultText
      = "No students to remove!" ∧
    ((StudentMarksSystem.removeLast rt)^[s.students.length + 1] s).resultType
      = ResultType.error ∧
    ((StudentMarksSystem.removeLast rt)^[s.students.length + 1] s).students = [] := by
  have hnil : ((StudentMarksSystem.removeLast rt)^[s.students.length] s).students = [] := by
    rw [students_iterate_removeLast]
    simp
  refine ⟨?_, hnil, ?_⟩
  · intro n h1 hn
    obtain ⟨m, rfl⟩ : ∃ m, n = m + 1 := ⟨n - 1, by omega⟩
    have hidx : s.students.length - (m + 1) < s.students.length := by omega
    refine ⟨s.students[s.students.length - (m + 1)], List.getElem?_eq_getElem hidx, ?_⟩
    have hlast : ((StudentMarksSystem.removeLast rt)^[m] s).students.getLast?
        = some s.students[s.students.length - (m + 1)] := by
      rw [students_iterate_removeLast]
      have hk : s.students.length - m = (s.students.length - (m + 1)) + 1 := by omega
      rw [hk, getLast?_take_succ _ _ hidx, List.getElem?_eq_getElem hidx]
    have h := removeLast_of_getLast rt _ _ hlast
    rw [← Function.iterate_succ_apply' (StudentMarksSystem.removeLast rt) m s] at h
    exact ⟨by simpa using h.2.2, students_iterate_removeLast rt s (m + 1), h.1, h.2.1⟩
  · have h := removeLast_of_nil rt _ hnil
    rw [← Function.iterate_succ_apply' (StudentMarksSystem.removeLast rt)] at h
    exact h

/-- Witness for C10. On the sample roster the second removeLast removes Sneha, the fourth of
the five records, and the sixth call reports the empty roster; on the empty roster the first
call already reports it. -/
theorem removeLast_repeated_witness :
    1 ≤ 2 ∧ 2 ≤ sampleSystem.students.length ∧
      ((StudentMarksSystem.removeLast asciiRuntime)^[2] sampleSystem).students
        = [⟨"Amit", 85⟩, ⟨"Priya", 92⟩, ⟨"Rahul", 76⟩] ∧
      ((StudentMarksSystem.removeLast asciiRuntime)^[2] sampleSystem).resultText
        = "Removed Sneha from the list" ∧
      (∃ removed : Student,
        sampleSystem.students[sampleSystem.students.length - 2]? = some removed ∧
        ((StudentMarksSystem.removeLast asciiRuntime)^[2 - 1] sampleSystem).students
          = ((StudentMarksSystem.removeLast asciiRuntime)^[2] sampleSystem).students
            ++ [removed] ∧
        ((StudentMarksSystem.removeLast asciiRuntime)^[2] sampleSystem).students
          = sampleSystem.students.take (sampleSystem.students.length - 2) ∧
        ((StudentMarksSystem.removeLast asciiRuntime)^[2] sampleSystem).resultText
          = "Removed " ++ removed.name ++ " from the list" ∧
        ((StudentMarksSystem.removeLast asciiRuntime)^[2] sampleSystem).resultType
          = ResultType.success) ∧
      ((StudentMarksSystem.removeLast asciiRuntime)^[sampleSystem.students.length + 1]
        sampleSystem).resultText = "No students to remove!" ∧
      ((StudentMarksSystem.removeLast asciiRuntime)^[sampleSystem.students.length + 1]
        sampleSystem).students = [] ∧
      emptySystem.students = [] ∧
      ((StudentMarksSystem.removeLast asciiRuntime)^[emptySystem.students.length + 1]
        emptySystem).resultText = "No students to remove!" ∧
      ((StudentMarksSystem.removeLast asciiRuntime)^[emptySystem.students.length + 1]
        emptySystem).students = [] :=
  have h := removeLast_repeated asciiRuntime sampleSystem
  have h0 := removeLast_repeated asciiRuntime emptySystem
  ⟨by decide, by decide, by decide, by decide, h.1 2 (by decide) (by decide), h.2.2.1,
    h.2.2.2.2, by decide, h0.2.2.1, h0.2.2.2.2⟩

/-! ## addStudent: validation, rejection and append -/

/-- Which of its four exits addStudent takes, by the trimmed name, the parsed marks and the
duplicate lookup. -/
theorem addStudent_exits (rt : Runtime) (s : StudentMarksSystem) (nameValue marksValue : String) :
    (JS.trim nameValue = "" ∧
      s.addStudent rt nameValue marksValue
        = s.showResult "Please enter a student name!" ResultType.error) ∨
    (JS.trim nameValue ≠ "" ∧
      (JS.parseInt marksValue = none ∨
        ∃ n : Int, JS.parseInt marksValue = some n ∧ (n < 0 ∨ n > 100)) ∧
      s.addStudent rt nameValue marksValue
        = s.showResult "Please enter valid marks (0-100)!" ResultType.error) ∨
    (JS.trim nameValue ≠ "" ∧
      (∃ n : Int, JS.parseInt marksValue = some n ∧ 0 ≤ n ∧ n ≤ 100) ∧
      (s.existingStudent rt (JS.trim nameValue)).isSome = true ∧
      s.addStudent rt nameValue marksValue
        = s.showResult "A student with this name already exists!" ResultType.error) ∨
    (JS.trim nameValue ≠ "" ∧
      (∃ n : Int, JS.parseInt marksValue = some n ∧ 0 ≤ n ∧ n ≤ 100) ∧
      (s.existingStudent rt (JS.trim nameValue)).isSome = false ∧
      (s.addStudent rt nameValue marksValue).resultType = ResultType.success) := by
  by_cases hname : JS.trim nameValue = ""
  · exact Or.inl ⟨hname, StudentMarksSystem.addStudent_blank rt s nameValue marksValue hname⟩
  · cases hmarks : JS.parseInt marksValue with
    | none =>
      exact Or.inr (Or.inl ⟨hname, Or.inl rfl,
        StudentMarksSystem.addStudent_nan rt s nameValue marksValue hname hmarks⟩)
    | some n =>
      by_cases hn : n < 0 ∨ n > 100
      · exact Or.inr (Or.inl ⟨hname, Or.inr ⟨n, rfl, hn⟩,
          StudentMarksSystem.addStudent_range rt s nameValue marksValue n hname hmarks hn⟩)
      · have h0 : 0 ≤ n := by omega
        have h100 : n ≤ 100 := by omega
        cases hdup : (s.existingStudent rt (JS.trim nameValue)).isSome with
        | true =>
          exact Or.inr (Or.inr (Or.inl ⟨hname, ⟨n, rfl, h0, h100⟩, rfl,
            StudentMarksSystem.addStudent_duplicate rt s nameValue marksValue n hname hmarks
              h0 h100 hdup⟩))
        | false =>
          refine Or.inr (Or.inr (Or.inr ⟨hname, ⟨n, rfl, h0, h100⟩, rfl, ?_⟩))
          rw [StudentMarksSystem.addStudent_success rt s nameValue marksValue n hname hmarks
            h0 h100 hdup]

/-- C4: whenever addStudent reports an error, the message is one of the three rejection
messages (blank name, invalid marks, duplicate name) and nothing but the results panel has
changed: the students array holds the same records in the same order, hence has the same
length, and originalStudents is untouched. A name that is blank after trimming always gives
the blank-name error. -/
theorem addStudent_failure_keeps_roster (rt : Runtime) (s : StudentMarksSystem)
    (nameValue marksValue : String) :
    ((s.addStudent rt nameValue marksValue).resultType = ResultType.error →
      (s.addStudent rt nameValue marksValue).students = s.students ∧
      (s.addStudent rt nameValue marksValue).students.length = s.students.length ∧
      (s.addStudent rt nameValue marksValue).originalStudents = s.originalStudents ∧
      (s.addStudent rt nameValue marksValue).rows = s.rows ∧
      ((s.addStudent rt nameValue marksValue).resultText = "Please enter a student name!" ∨
        (s.addStudent rt nameValue marksValue).resultText
          = "Please enter valid marks (0-100)!" ∨
        (s.addStudent rt nameValue marksValue).resultText
          = "A student with this name already exists!")) ∧
    (JS.trim nameValue = "" →
      (s.addStudent rt nameValue marksValue).resultType = ResultType.error ∧
      (s.addStudent rt nameValue marksValue).resultText = "Please enter a student name!") := by
  constructor
  · intro hfail
    rcases addStudent_exits rt s nameValue marksValue with
      ⟨-, h⟩ | ⟨-, -, h⟩ | ⟨-, -, -, h⟩ | ⟨-, -, -, h⟩
    · rw [h]; exact ⟨rfl, rfl, rfl, rfl, Or.inl rfl⟩
    · rw [h]; exact ⟨rfl, rfl, rfl, rfl, Or.inr (Or.inl rfl)⟩
    · rw [h]; exact ⟨rfl, rfl, rfl, rfl, Or.inr (Or.inr rfl)⟩
    · rw [h] at hfail
      exact ResultType.noConfusion hfail
  · intro hname
    rw [StudentMarksSystem.addStudent_blank rt s nameValue marksValue hname]
    exact ⟨rfl, rfl⟩

/-- Witness for C4: submitting Neha with marks 101 on the sample roster is rejected for its
marks and the roster still has its five records. -/
theorem addStudent_failure_keeps_roster_witness :
    (sampleSystem.addStudent asciiRuntime "Neha" "101").resultType = ResultType.error ∧
      (sampleSystem.addStudent asciiRuntime "Neha" "101").resultText
        = "Please enter valid marks (0-100)!" ∧
      (sampleSystem.addStudent asciiRuntime "Neha" "101").students = sampleStudents ∧
      (sampleSystem.addStudent asciiRuntime "Neha" "101").students.length = 5 :=
  ⟨by decide, by decide,
    ((addStudent_failure_keeps_roster asciiRuntime sampleSystem "Neha" "101").1 (by decide)).1,
    ((addStudent_failure_keeps_roster asciiRuntime sampleSystem "Neha" "101").1 (by decide)).2.1⟩

/-- C5: when the trimmed name is not empty, the marks field reads as an integer n with
0 ≤ n ≤ 100 and no student has the same lower-cased name, addStudent succeeds and the students
array becomes the old one followed by the single record made of the trimmed name and n: one
record longer, the new record last, the earlier records unchanged and in the same order. -/
theorem addStudent_appends (rt : Runtime) (s : StudentMarksSystem)
    (nameValue marksValue : String) (n : Int) (hname : JS.trim nameValue ≠ "")
    (hmarks : JS.parseInt marksValue = some n) (h0 : 0 ≤ n) (h100 : n ≤ 100)
    (hnew : ∀ st ∈ s.students, rt.toLowerCase st.name ≠ rt.toLowerCase (JS.trim nameValue)) :
    (s.addStudent rt nameValue marksValue).resultType = ResultType.success ∧
      (s.addStudent rt nameValue marksValue).resultText
        = "Added " ++ JS.trim nameValue ++ " with " ++ toString n ++ " marks to the list" ∧
      (s.addStudent rt nameValue marksValue).students
        = s.students ++ [Student.mk (JS.trim nameValue) n] ∧
      (s.addStudent rt nameValue marksValue).students.length = s.students.length + 1 ∧
      (s.addStudent rt nameValue marksValue).students.getLast?
        = some (Student.mk (JS.trim nameValue) n) ∧
      (s.addStudent rt nameValue marksValue).students.take s.students.length = s.students := by
  have hnone : (s.existingStudent rt (JS.trim nameValue)).isSome = false := by
    cases h : (s.existingStudent rt (JS.trim nameValue)).isSome with
    | false => rfl
    | true =>
      obtain ⟨st, hmem, heq⟩ :=
        (StudentMarksSystem.existingStudent_isSome_iff rt s (JS.trim nameValue)).mp h
      exact absurd heq (hnew st hmem)
  rw [StudentMarksSystem.addStudent_success rt s nameValue marksValue n hname hmarks h0 h100
    hnone]
  refine ⟨rfl, rfl, rfl, ?_, ?_, ?_⟩
  · simp
  · simp
  · simp

/-- Witness for C5: submitting Neha with marks 70 on the sample roster gives six records with
Neha/70 last. -/
theorem addStudent_appends_witness :
    JS.trim "Neha" ≠ "" ∧ JS.parseInt "70" = some 70 ∧
      (sampleSystem.addStudent asciiRuntime "Neha" "70").students
        = sampleStudents ++ [Student.mk "Neha" 70] ∧
      (sampleSystem.addStudent asciiRuntime "Neha" "70").students.length = 5 + 1 ∧
      (sampleSystem.addStudent asciiRuntime "Neha" "70").students.getLast?
        = some (Student.mk "Neha" 70) :=
  have h := addStudent_appends asciiRuntime sampleSystem "Neha" "70" 70 (by decide) (by decide)
    (by decide) (by decide) (by decide)
  ⟨by decide, by decide, h.2.2.1, h.2.2.2.1, h.2.2.2.2.1⟩

/-- C3: for a candidate whose trimmed name is not empty and whose marks field reads as an
integer n with 0 ≤ n ≤ 100, addStudent reports the duplicate-name error exactly when some
student of the roster has the same name after lower-casing; in particular submitting amit to
any roster that contains Amit is rejected as a duplicate, and the roster is unchanged. -/
theorem addStudent_duplicate_iff (rt : Runtime) (s : StudentMarksSystem)
    (nameValue marksValue : String) (n : Int) (hname : JS.trim nameValue ≠ "")
    (hmarks : JS.parseInt marksValue = some n) (h0 : 0 ≤ n) (h100 : n ≤ 100) :
    (((s.addStudent rt nameValue marksValue).resultType = ResultType.error ∧
        (s.addStudent rt nameValue marksValue).resultText
          = "A student with this name already exists!") ↔
      ∃ st ∈ s.students, rt.toLowerCase st.name = rt.toLowerCase (JS.trim nameValue)) ∧
    ((∃ st ∈ s.students, st.name = "Amit") →
      (s.addStudent rt "amit" marksValue).resultType = ResultType.error ∧
      (s.addStudent rt "amit" marksValue).resultText
        = "A student with this name already exists!" ∧
      (s.addStudent rt "amit" marksValue).students = s.students) := by
  constructor
  · rw [← StudentMarksSystem.existingStudent_isSome_iff]
    cases hdup : (s.existingStudent rt (JS.trim nameValue)).isSome with
    | true =>
      rw [StudentMarksSystem.addStudent_duplicate rt s nameValue marksValue n hname hmarks
        h0 h100 hdup]
      exact ⟨fun _ => rfl, fun _ => ⟨rfl, rfl⟩⟩
    | false =>
      rw [StudentMarksSystem.addStudent_success rt s nameValue marksValue n hname hmarks
        h0 h100 hdup]
      exact ⟨fun h => ResultType.noConfusion h.1, fun h => Bool.noConfusion h⟩
  · rintro ⟨st, hmem, hst⟩
    have htrim : JS.trim "amit" = "amit" := by decide
    have hdup : (s.existingStudent rt (JS.trim "amit")).isSome = true := by
      rw [StudentMarksSystem.existingStudent_isSome_iff]
      exact ⟨st, hmem, by rw [hst, htrim, lower_Amit, lower_amit]⟩
    rw [StudentMarksSystem.addStudent_duplicate rt s "amit" marksValue n (by decide) hmarks
      h0 h100 hdup]
    exact ⟨rfl, rfl, rfl⟩

/-- Witness for C3: submitting amit with marks 70 on the sample roster, which contains Amit. -/
theorem addStudent_duplicate_iff_witness :
    JS.trim "amit" ≠ "" ∧ JS.parseInt "70" = some 70 ∧
      (((sampleSystem.addStudent asciiRuntime "amit" "70").resultType = ResultType.error ∧
          (sampleSystem.addStudent asciiRuntime "amit" "70").resultText
            = "A student with this name already exists!") ↔
        ∃ st ∈ sampleSystem.students,
          asciiRuntime.toLowerCase st.name = asciiRuntime.toLowerCase (JS.trim "amit")) ∧
      (sampleSystem.addStudent asciiRuntime "amit" "70").resultText
        = "A student with this name already exists!" :=
  have h := addStudent_duplicate_iff asciiRuntime sampleSystem "amit" "70" 70 (by decide)
    (by decide) (by decide) (by decide)
  ⟨by decide, by decide, h.1, (h.2 ⟨Student.mk "Amit" 85, by decide, rfl⟩).2.1⟩

/-- Counterexample to C2 as stated: on the sample roster the marks text 85.7, which is not an
integer, is not rejected; parseInt reads its leading digits, and Neha is appended with marks
85. Likewise 12abc is read as 12 and the record is appended. -/
theorem addStudent_accepts_decimal_text :
    JS.trim "Neha" ≠ "" ∧
      JS.parseInt "85.7" = some 85 ∧
      (sampleSystem.addStudent asciiRuntime "Neha" "85.7").resultType = ResultType.success ∧
      (sampleSystem.addStudent asciiRuntime "Neha" "85.7").students
        = sampleStudents ++ [Student.mk "Neha" 85] ∧
      JS.parseInt "12abc" = some 12 ∧
      (sampleSystem.addStudent asciiRuntime "Neha" "12abc").resultType = ResultType.success ∧
      (sampleSystem.addStudent asciiRuntime "Neha" "12abc").students
        = sampleStudents ++ [Student.mk "Neha" 12] := by
  decide

/-- C2 as amended: for a candidate whose trimmed name is not empty, addStudent reports the
invalid-marks error (and leaves the roster unchanged) exactly when parseInt of the marks text
is NaN or an integer outside 0..100. The texts abc, the empty text and 0x are read as NaN and
the texts 101 and -1 as integers out of range, so these are rejected; the texts 85.7, 12abc
and 0x1F are read as 85, 12 and 31, which the range test accepts. -/
theorem addStudent_invalid_marks_iff (rt : Runtime) (s : StudentMarksSystem)
    (nameValue marksValue : String) (hname : JS.trim nameValue ≠ "") :
    (((s.addStudent rt nameValue marksValue).resultType = ResultType.error ∧
        (s.addStudent rt nameValue marksValue).resultText
          = "Please enter valid marks (0-100)!") ↔
      (JS.parseInt marksValue = none ∨
        ∃ n : Int, JS.parseInt marksValue = some n ∧ (n < 0 ∨ n > 100))) ∧
    ((JS.parseInt marksValue = none ∨
        ∃ n : Int, JS.parseInt marksValue = some n ∧ (n < 0 ∨ n > 100)) →
      (s.addStudent rt nameValue marksValue).students = s.students) ∧
    JS.parseInt "abc" = none ∧ JS.parseInt "" = none ∧
    JS.parseInt "101" = some 101 ∧ JS.parseInt "-1" = some (-1) ∧
    JS.parseInt "85.7" = some 85 ∧ JS.parseInt "12abc" = some 12 ∧
    JS.parseInt "0x" = none ∧ JS.parseInt "0x1F" = some 31 := by
  refine ⟨?_, ?_, by decide, by decide, by decide, by decide, by decide, by decide,
    by decide, by decide⟩
  · rcases addStudent_exits rt s nameValue marksValue with
      ⟨h, -⟩ | ⟨-, hbad, h⟩ | ⟨-, ⟨n, hn, h0, h100⟩, -, h⟩ | ⟨-, ⟨n, hn, h0, h100⟩, -, h⟩
    · exact absurd h hname
    · rw [h]
      exact ⟨fun _ => hbad, fun _ => ⟨rfl, rfl⟩⟩
    · rw [h]
      constructor
      · intro hmsg
        have hne : ("A student with this name already exists!" : String)
            ≠ "Please enter valid marks (0-100)!" := by decide
        exact absurd hmsg.2 hne
      · rintro (hnone | ⟨m, hm, hrange⟩)
        · rw [hnone] at hn
          exact Option.noConfusion hn
        · rw [hm] at hn
          have : m = n := Option.some.inj hn
          omega
    · constructor
      · intro hmsg
        rw [h] at hmsg
        exact ResultType.noConfusion hmsg.1
      · rintro (hnone | ⟨m, hm, hrange⟩)
        · rw [hnone] at hn
          exact Option.noConfusion hn
        · rw [hm] at hn
          have : m = n := Option.some.inj hn
          omega
  · intro hbad
    rcases hbad with hnone | ⟨n, hn, hrange⟩
    · rw [StudentMarksSystem.addStudent_nan rt s nameValue marksValue hname hnone]
      rfl
    · rw [StudentMarksSystem.addStudent_range rt s nameValue marksValue n hname hn hrange]
      rfl

/-- Witness for the amended C2: Neha with marks text abc on the sample roster. -/
theorem addStudent_invalid_marks_iff_witness :
    JS.trim "Neha" ≠ "" ∧ JS.parseInt "abc" = none ∧
      (sampleSystem.addStudent asciiRuntime "Neha" "abc").resultText
        = "Please enter valid marks (0-100)!" ∧
      (sampleSystem.addStudent asciiRuntime "Neha" "abc").students = sampleSystem.students :=
  have h := addStudent_invalid_marks_iff asciiRuntime sampleSystem "Neha" "abc" (by decide)
  ⟨by decide, by decide, (h.1.mpr (Or.inl (by decide))).2, h.2.1 (Or.inl (by decide))⟩

/-! ## showHighest -/

theorem findIndex_spec {α : Type} (p : α → Bool) :
    ∀ l : List α, (∃ x ∈ l, p x = true) →
      ∃ i : Nat, JS.findIndex p l = (i : Int) ∧
        ∃ x, l[i]? = some x ∧ p x = true ∧ l.find? p = some x ∧
          ∀ j < i, ∀ y, l[j]? = some y → p y = false := by
  intro l
  induction l with
  | nil => rintro ⟨x, hx, -⟩; cases hx
  | cons a l ih =>
    intro hex
    by_cases ha : p a = true
    · refine ⟨0, by simp [JS.findIndex, ha], a, by simp, ha, by simp [ha], ?_⟩
      intro j hj
      omega
    · have hex' : ∃ x ∈ l, p x = true := by
        obtain ⟨x, hx, hpx⟩ := hex
        rcases List.mem_cons.mp hx with h | h
        · subst h; exact absurd hpx ha
        · exact ⟨x, h, hpx⟩
      obtain ⟨i, hi, x, hxi, hpx, hfind, hmin⟩ := ih hex'
      refine ⟨i + 1, ?_, x, by simpa using hxi, hpx, by simp [ha, hfind], ?_⟩
      · have hnn : ¬ ((i : Int) < 0) := by omega
        simp only [JS.findIndex, ha, hi, hnn, if_false]
        simp
      · intro j hj y hy
        cases j with
        | zero =>
          simp only [List.getElem?_cons_zero, Option.some.injEq] at hy
          subst hy
          simpa using ha
        | succ j =>
          simp only [List.getElem?_cons_succ] at hy
          exact hmin j (by omega) y hy

theorem mathMax_fold (xs : List Int) :
    ∀ a : Int, ∃ h : Int,
      xs.foldl (fun acc x => match acc with
        | none => some x
        | some a => some (max a x)) (some a) = some h ∧
      a ≤ h ∧ (∀ x ∈ xs, x ≤ h) ∧ (h = a ∨ h ∈ xs) := by
  induction xs with
  | nil => intro a; exact ⟨a, rfl, le_refl a, by simp, Or.inl rfl⟩
  | cons x xs ih =>
    intro a
    obtain ⟨h, hfold, hle, hall, hmem⟩ := ih (max a x)
    refine ⟨h, by simpa using hfold, le_trans (le_max_left a x) hle, ?_, ?_⟩
    · intro y hy
      rcases List.mem_cons.mp hy with rfl | hy
      · exact le_trans (le_max_right a y) hle
      · exact hall y hy
    · rcases hmem with hm | hm
      · rcases max_choice a x with hc | hc
        · exact Or.inl (hm.trans hc)
        · exact Or.inr (by rw [hm, hc]; exact List.mem_cons_self _ _)
      · exact Or.inr (List.mem_cons_of_mem _ hm)

theorem mathMax_spec (xs : List Int) (hne : xs ≠ []) :
    ∃ h : Int, JS.mathMax xs = some h ∧ h ∈ xs ∧ ∀ x ∈ xs, x ≤ h := by
  cases xs with
  | nil => exact absurd rfl hne
  | cons a xs =>
    obtain ⟨h, hfold, hle, hall, hmem⟩ := mathMax_fold xs a
    refine ⟨h, by simpa [JS.mathMax] using hfold, ?_, ?_⟩
    · rcases hmem with hm | hm
      · rw [hm]; exact List.mem_cons_self _ _
      · exact List.mem_cons_of_mem _ hm
    · intro y hy
      rcases List.mem_cons.mp hy with rfl | hy
      · exact hle
      · exact hall y hy

theorem handle_rows (rt : Runtime) (s : StudentMarksSystem) (e : Event)
    (hsync : s.rows = StudentMarksSystem.renderRows rt 0 s.students) :
    (e.handle rt s).rows = StudentMarksSystem.renderRows rt 0 (e.handle rt s).students := by
  cases e with
  | showHighest =>
    simp only [Event.handle, StudentMarksSystem.showHighest, StudentMarksSystem.highlightRow]
    split
    · exact hsync
    · split <;> split <;> exact hsync
  | showAverage =>
    simp only [Event.handle, StudentMarksSystem.showAverage]
    split <;> exact hsync
  | sortByMarks =>
    simp only [Event.handle, StudentMarksSystem.sortByMarks]
    split
    · exact hsync
    · rfl
  | resetSample => rfl
  | removeLast =>
    simp only [Event.handle, StudentMarksSystem.removeLast]
    split
    · exact hsync
    · rfl
  | addStudent nameValue marksValue =>
    simp only [Event.handle]
    rcases StudentMarksSystem.addStudent_cases rt s nameValue marksValue with
      ⟨m, hm⟩ | ⟨n, hname, hmarks, h0, h100, hnew, -, -⟩
    · rw [hm]; exact hsync
    · rw [StudentMarksSystem.addStudent_success rt s nameValue marksValue n hname hmarks
        h0 h100 hnew]
  | hideResults => exact hsync

/-- After every event the table holds what renderTable produces from the current students
array. -/
theorem run_rows (rt : Runtime) (page : StudentMarksSystem.Page) (events : List Event) :
    (run rt page events).rows
      = StudentMarksSystem.renderRows rt 0 (run rt page events).students := by
  have key : ∀ (evs : List Event) (s : StudentMarksSystem),
      s.rows = StudentMarksSystem.renderRows rt 0 s.students →
      (evs.foldl (Event.handle rt) s).rows
        = StudentMarksSystem.renderRows rt 0 (evs.foldl (Event.handle rt) s).students := by
    intro evs
    induction evs with
    | nil => intro s h; exact h
    | cons e rest ih => intro s h; exact ih _ (handle_rows rt s e h)
  exact key events _ rfl

/-- When no name creates a nested tr element, the table body holds one tr element per student,
the i-th being the row of student i. -/
theorem renderRows_plain (rt : Runtime) :
    ∀ (l : List Student) (k : Nat), (∀ st ∈ l, rt.nestedRows st.name = 0) →
      (StudentMarksSystem.renderRows rt k l).length = l.length ∧
      ∀ i : Nat, i < l.length →
        (StudentMarksSystem.renderRows rt k l)[i]? = some (TableRow.mk (k + i) false) := by
  intro l
  induction l with
  | nil => intro k _; exact ⟨rfl, fun i hi => absurd hi (Nat.not_lt_zero i)⟩
  | cons a l ih =>
    intro k h
    have ha : rt.nestedRows a.name = 0 := h a (List.mem_cons_self _ _)
    obtain ⟨hlen, hget⟩ := ih (k + 1) (fun st hst => h st (List.mem_cons_of_mem _ hst))
    have hrows : StudentMarksSystem.renderRows rt k (a :: l)
        = TableRow.mk k false :: StudentMarksSystem.renderRows rt (k + 1) l := by
      simp [StudentMarksSystem.renderRows, ha]
    rw [hrows]
    refine ⟨by simp [hlen], ?_⟩
    intro i hi
    cases i with
    | zero => simp
    | succ i =>
      rw [List.getElem?_cons_succ, hget i (by simpa using hi)]
      congr 2
      omega

/-- What showHighest reports and marks, for any state of the table: on a non-empty roster it
reports the student at the smallest index i whose marks is at least the marks of every student,
and the class highlight goes to the i-th tr element below the table body, if there is one; on
an empty roster it reports the no-students error. The roster is unchanged. -/
theorem showHighest_report (s : StudentMarksSystem) :
    (s.students ≠ [] →
      ∃ (i : Nat) (st : Student),
        s.students[i]? = some st ∧
        (∀ r ∈ s.students, r.marks ≤ st.marks) ∧
        (∀ j < i, ∀ r, s.students[j]? = some r → ¬ ∀ q ∈ s.students, q.marks ≤ r.marks) ∧
        s.highestStudent = some st ∧
        s.highestIndex = (i : Int) ∧
        s.showHighest.highlighted = (if i < s.rows.length then [i] else []) ∧
        s.showHighest.rows = s.rows ∧
        s.showHighest.resultType = ResultType.success ∧
        s.showHighest.resultText
          = "Highest marks: " ++ st.name ++ " with " ++ toString st.marks ++ " marks" ∧
        s.showHighest.students = s.students) ∧
    (s.students = [] →
      s.showHighest.resultType = ResultType.error ∧
      s.showHighest.resultText = "No students to display!" ∧
      s.showHighest.students = s.students) := by
  constructor
  · intro hne
    have hne' : s.students.map (fun student => student.marks) ≠ [] := by
      simpa using hne
    obtain ⟨h, hmax, hmem, hall⟩ := mathMax_spec _ hne'
    have hhigh : s.highest = some h := hmax
    obtain ⟨w, hw, hwh⟩ := List.mem_map.mp hmem
    have hex : ∃ x ∈ s.students, (fun student : Student => some student.marks == s.highest) x
        = true := ⟨w, hw, by simp [hhigh, hwh]⟩
    obtain ⟨i, hi, st, hsti, hpst, hfind, hmin⟩ := findIndex_spec _ s.students hex
    have hst : st.marks = h := by simpa [hhigh] using hpst
    have hidx : s.highestIndex = (i : Int) := hi
    have hstu : s.highestStudent = some st := hfind
    have hlen : s.students.length ≠ 0 := by
      intro h0
      exact hne (List.length_eq_zero.mp h0)
    have hshow : s.showHighest
        = ((s.clearHighlights).highlightRow (i : Int)).showResult
            ("Highest marks: " ++ st.name ++ " with " ++ toString h ++ " marks")
            ResultType.success := by
      simp only [StudentMarksSystem.showHighest, hlen, if_false, hidx, hstu, hhigh]
    have hmark : ((s.clearHighlights).highlightRow (i : Int)).highlighted
        = (if i < s.rows.length then [i] else []) ∧
        ((s.clearHighlights).highlightRow (i : Int)).rows = s.rows := by
      unfold StudentMarksSystem.highlightRow
      by_cases hrow : i < s.rows.length
      · have hcond : (0 : Int) ≤ (i : Int) ∧ (i : Int) < (s.clearHighlights.rows.length : Int) :=
          ⟨by omega, by show (i : Int) < (s.rows.length : Int); omega⟩
        rw [if_pos hcond, if_pos hrow]
        exact ⟨rfl, rfl⟩
      · have hcond : ¬ ((0 : Int) ≤ (i : Int) ∧
            (i : Int) < (s.clearHighlights.rows.length : Int)) := by
          intro hc
          have : (i : Int) < (s.rows.length : Int) := hc.2
          omega
        rw [if_neg hcond, if_neg hrow]
        exact ⟨rfl, rfl⟩
    refine ⟨i, st, hsti, ?_, ?_, hstu, hidx, ?_, ?_, ?_, ?_, ?_⟩
    · intro r hr
      rw [hst]
      exact hall _ (List.mem_map_of_mem _ hr)
    · intro j hj r hr hmaxr
      have hpr := hmin j hj r hr
      have hle1 : st.marks ≤ r.marks :=
        hmaxr st (List.getElem?_mem hsti)
      have hle2 : r.marks ≤ h := hall _ (List.mem_map_of_mem _ (List.getElem?_mem hr))
      have : r.marks = h := by omega
      simp [hhigh, this] at hpr
    · rw [hshow]; exact hmark.1
    · rw [hshow]; exact hmark.2
    · rw [hshow]; rfl
    · rw [hshow, hst]; rfl
    · exact StudentMarksSystem.students_showHighest s
  · intro hnil
    simp [StudentMarksSystem.showHighest, hnil, StudentMarksSystem.showResult]

/-- On a table rendered from a roster in which no name creates a nested tr element (in
particular when no name contains the character <), showHighest highlights exactly the row of
the student it reports. -/
theorem showHighest_plain_names (rt : Runtime) (s : StudentMarksSystem)
    (hsync : s.rows = StudentMarksSystem.renderRows rt 0 s.students)
    (hplain : ∀ st ∈ s.students, rt.nestedRows st.name = 0) (hne : s.students ≠ []) :
    ∃ (i : Nat) (st : Student),
      s.students[i]? = some st ∧
      (∀ r ∈ s.students, r.marks ≤ st.marks) ∧
      (∀ j < i, ∀ r, s.students[j]? = some r → ¬ ∀ q ∈ s.students, q.marks ≤ r.marks) ∧
      s.showHighest.highlighted = [i] ∧
      s.showHighest.rows[i]? = some (TableRow.mk i false) := by
  obtain ⟨i, st, hsti, hmax, hfirst, -, -, hmark, hrows, -, -, -⟩ :=
    (showHighest_report s).1 hne
  obtain ⟨hlen, hget⟩ := renderRows_plain rt s.students 0 hplain
  have hilt : i < s.students.length := by
    by_contra hcon
    rw [List.getElem?_eq_none (by omega)] at hsti
    exact Option.noConfusion hsti
  refine ⟨i, st, hsti, hmax, hfirst, ?_, ?_⟩
  · rw [hmark, hsync, hlen, if_pos hilt]
  · rw [hrows, hsync, hget i hilt]
    simp

/-- C6, the code at the failing input: on a fresh page the students named
"<table><tr><td>x</td></tr></table>" (marks 1) and Top (marks 100) are added and showHighest
is run. The roster has 7 students and Top, at index 6, is reported as highest; the table body
holds 8 tr elements, because the row of the sixth student contains the tr element of the table
written in that name. The class highlight goes to tr element 6, which is that nested element
(inside the row of student 5); the row of Top is tr element 7 and is not highlighted. -/
theorem showHighest_highlights_nested_row :
    (run asciiRuntime blankPage markupEvents).students.length = 7 ∧
      (run asciiRuntime blankPage markupEvents).students[6]? = some ⟨"Top", 100⟩ ∧
      (run asciiRuntime blankPage markupEvents).highestStudent = some ⟨"Top", 100⟩ ∧
      (run asciiRuntime blankPage markupEvents).highestIndex = 6 ∧
      (run asciiRuntime blankPage markupEvents).rows.length = 8 ∧
      (run asciiRuntime blankPage markupEvents).showHighest.resultText
        = "Highest marks: Top with 100 marks" ∧
      (run asciiRuntime blankPage markupEvents).showHighest.highlighted = [6] ∧
      (run asciiRuntime blankPage markupEvents).showHighest.rows[6]?
        = some (TableRow.mk 5 true) ∧
      (run asciiRuntime blankPage markupEvents).showHighest.rows[7]?
        = some (TableRow.mk 6 false) ∧
      ¬ 7 ∈ (run asciiRuntime blankPage markupEvents).showHighest.highlighted := by
  decide

/-! ## sortByMarks -/

theorem filter_orderedInsert_marks (m : Int) (a : Student) :
    ∀ l : List Student,
      (List.orderedInsert (fun x y : Student => y.marks ≤ x.marks) a l).filter
          (fun st => st.marks == m)
        = (a :: l).filter (fun st => st.marks == m) := by
  intro l
  induction l with
  | nil => rfl
  | cons b l ih =>
    by_cases hab : b.marks ≤ a.marks
    · rw [List.orderedInsert, if_pos hab]
    · rw [List.orderedInsert, if_neg hab, List.filter_cons, ih]
      by_cases ha : a.marks = m
      · have hb : ¬ b.marks = m := by omega
        simp [List.filter_cons, ha, hb]
      · simp [List.filter_cons, ha]

theorem filter_sortDescending (m : Int) (l : List Student) :
    (StudentMarksSystem.sortDescending l).filter (fun st => st.marks == m)
      = l.filter (fun st => st.marks == m) := by
  induction l with
  | nil => rfl
  | cons a l ih =>
    show (List.orderedInsert _ a (StudentMarksSystem.sortDescending l)).filter _ = _
    rw [filter_orderedInsert_marks, List.filter_cons, List.filter_cons, ih]

theorem sortDescending_sorted (l : List Student) :
    (StudentMarksSystem.sortDescending l).Pairwise (fun a b => b.marks ≤ a.marks) := by
  haveI : IsTotal Student (fun a b => b.marks ≤ a.marks) := ⟨fun a b => le_total _ _⟩
  haveI : IsTrans Student (fun a b => b.marks ≤ a.marks) :=
    ⟨fun _ _ _ hab hbc => le_trans hbc hab⟩
  exact List.sorted_insertionSort (fun a b : Student => b.marks ≤ a.marks) l

theorem pair_sublist_sortDescending (l : List Student) (a b : Student)
    (hab : a.marks = b.marks) (h : List.Sublist [a, b] l) :
    List.Sublist [a, b] (StudentMarksSystem.sortDescending l) := by
  have h1 := h.filter (fun st => st.marks == a.marks)
  have h2 : [a, b].filter (fun st => st.marks == a.marks) = [a, b] := by
    simp [List.filter_cons, hab]
  rw [h2, ← filter_sortDescending a.marks l] at h1
  exact h1.trans (List.filter_sublist _)

/-- C8: on a non-empty roster sortByMarks succeeds and leaves the students array a
permutation of the previous one, non-increasing in marks, and in stable order: for every marks
value the students having it form the same sequence before and after, so any two students
with equal marks keep their relative order. -/
theorem sortByMarks_stable_descending (rt : Runtime) (s : StudentMarksSystem)
    (hne : s.students ≠ []) :
    (s.sortByMarks rt).resultType = ResultType.success ∧
      (s.sortByMarks rt).students.Perm s.students ∧
      (s.sortByMarks rt).students.Pairwise (fun a b => b.marks ≤ a.marks) ∧
      (∀ m : Int, (s.sortByMarks rt).students.filter (fun st => st.marks == m)
        = s.students.filter (fun st => st.marks == m)) ∧
      (∀ a b : Student, a.marks = b.marks → List.Sublist [a, b] s.students →
        List.Sublist [a, b] (s.sortByMarks rt).students) := by
  refine ⟨?_, ?_, ?_, ?_, ?_⟩
  · have hlen : s.students.length ≠ 0 := fun h0 => hne (List.length_eq_zero.mp h0)
    simp [StudentMarksSystem.sortByMarks, hlen, StudentMarksSystem.showResult]
  · rw [StudentMarksSystem.students_sortByMarks]
    exact sortDescending_perm _
  · rw [StudentMarksSystem.students_sortByMarks]
    exact sortDescending_sorted _
  · intro m
    rw [StudentMarksSystem.students_sortByMarks]
    exact filter_sortDescending m _
  · intro a b hab h
    rw [StudentMarksSystem.students_sortByMarks]
    exact pair_sublist_sortDescending _ a b hab h

/-- Witness for C8: sorting a roster in which Priya and Sneha tie at 92 keeps Priya before
Sneha. -/
theorem sortByMarks_stable_descending_witness :
    tiedSystem.students ≠ [] ∧
      tiedSystem.students
        = [⟨"Amit", 85⟩, ⟨"Priya", 92⟩, ⟨"Rahul", 76⟩, ⟨"Sneha", 92⟩, ⟨"Karan", 95⟩] ∧
      (tiedSystem.sortByMarks asciiRuntime).students
        = [⟨"Karan", 95⟩, ⟨"Priya", 92⟩, ⟨"Sneha", 92⟩, ⟨"Amit", 85⟩, ⟨"Rahul", 76⟩] ∧
      (tiedSystem.sortByMarks asciiRuntime).students.Perm tiedSystem.students ∧
      (tiedSystem.sortByMarks asciiRuntime).students.Pairwise
        (fun a b => b.marks ≤ a.marks) :=
  have h := sortByMarks_stable_descending asciiRuntime tiedSystem (by decide)
  ⟨by decide, by decide, by decide, h.2.1, h.2.2.1⟩

/-! ## showAverage -/

theorem bitLength_zero (fuel : Nat) : JS.bitLength fuel 0 = 0 := by
  cases fuel <;> simp [JS.bitLength]

theorem bitLength_spec :
    ∀ fuel n : Nat, n ≤ fuel → 0 < n →
      ∃ L : Nat, JS.bitLength fuel n = L + 1 ∧ 2 ^ L ≤ n ∧ n < 2 ^ (L + 1) := by
  intro fuel
  induction fuel with
  | zero => intro n h0 hpos; omega
  | succ fuel ih =>
    intro n hle hpos
    have hn : n ≠ 0 := by omega
    by_cases hhalf : n / 2 = 0
    · refine ⟨0, by simp [JS.bitLength, hn, hhalf, bitLength_zero], ?_, ?_⟩ <;> omega
    · obtain ⟨L, hL, hlo, hhi⟩ := ih (n / 2) (by omega) (by omega)
      refine ⟨L + 1, by simp [JS.bitLength, hn, hL], ?_, ?_⟩
      · rw [pow_succ]; omega
      · rw [pow_succ]; omega

/-- The quotients of the examples have the binary64 bit patterns 3FC3333333333333 (3 / 20),
4055CCCCCCCCCCCD (436 / 5), 4056800000000000 (180 / 2) and 3FD0000000000000 (1 / 4). -/
theorem divide_examples :
    JS.divide 3 20 = ⟨5404319552844595, -55⟩ ∧
      JS.divide 436 5 = ⟨6136154492292301, -46⟩ ∧
      JS.divide 180 2 = ⟨6333186975989760, -46⟩ ∧
      JS.divide 1 4 = ⟨4503599627370496, -54⟩ := by
  decide

/-- For a quotient of at most 100, divide scales by a power of two 2^K that brings the exact
quotient into the interval from 2^52 to 2^53 and rounds the scaled quotient to an integer. -/
theorem divide_normal (a b : Nat) (ha : 0 < a) (hb : 0 < b) (hab : a ≤ 100 * b) :
    ∃ K : Nat, 45 ≤ K ∧ 2 ^ 52 * b ≤ a * 2 ^ K ∧ a * 2 ^ K < 2 ^ 53 * b ∧
      JS.divide a b = ⟨JS.roundHalfEven (a * 2 ^ K) b, -(K : Int)⟩ := by
  obtain ⟨la, hla, halo, hahi⟩ := bitLength_spec a a (le_refl a) ha
  obtain ⟨lb, hlb, hblo, hbhi⟩ := bitLength_spec b b (le_refl b) hb
  have hlalb : la < lb + 8 := by
    have h1 : 2 ^ la < 2 ^ (lb + 8) := by
      have h2 : 2 ^ (lb + 8) = 2 ^ (lb + 1) * 128 := by rw [pow_add, pow_add, mul_assoc]; rfl
      rw [h2]
      omega
    exact (Nat.pow_lt_pow_iff_right (by norm_num)).mp h1
  obtain ⟨K0, hK0⟩ : ∃ K0 : Nat, K0 + la = 52 + lb := ⟨52 + lb - la, by omega⟩
  have hk0 : (52 + (JS.bitLength b b : Int) - (JS.bitLength a a : Int)) = (K0 : Int) := by
    rw [hla, hlb]; push_cast; omega
  have hlow : 2 ^ 52 * b < a * 2 ^ (K0 + 1) := by
    have h1 : 2 ^ la * 2 ^ (K0 + 1) = 2 ^ 52 * 2 ^ (lb + 1) := by
      rw [← pow_add, ← pow_add]; congr 1; omega
    calc 2 ^ 52 * b < 2 ^ 52 * 2 ^ (lb + 1) := by
          exact Nat.mul_lt_mul_of_pos_left hbhi (by positivity)
      _ = 2 ^ la * 2 ^ (K0 + 1) := h1.symm
      _ ≤ a * 2 ^ (K0 + 1) := Nat.mul_le_mul_right _ halo
  have hupp : a * 2 ^ K0 < 2 ^ 53 * b := by
    have h1 : 2 ^ (la + 1) * 2 ^ K0 = 2 ^ 53 * 2 ^ lb := by
      rw [← pow_add, ← pow_add]; congr 1; omega
    calc a * 2 ^ K0 < 2 ^ (la + 1) * 2 ^ K0 := by
          exact Nat.mul_lt_mul_of_pos_right hahi (by positivity)
      _ = 2 ^ 53 * 2 ^ lb := h1
      _ ≤ 2 ^ 53 * b := Nat.mul_le_mul_left _ hblo
  have han : a ≠ 0 := by omega
  have hshift : JS.binaryShift a b
      = if a * 2 ^ K0 < 2 ^ 52 * b then ((K0 + 1 : Nat) : Int) else (K0 : Int) := by
    simp only [JS.binaryShift, hk0, Int.toNat_ofNat, Int.toNat_neg_nat, pow_zero, mul_one]
    rfl
  by_cases hc : a * 2 ^ K0 < 2 ^ 52 * b
  · refine ⟨K0 + 1, by omega, le_of_lt hlow, ?_, ?_⟩
    · have h2 : a * 2 ^ (K0 + 1) = 2 * (a * 2 ^ K0) := by rw [pow_succ]; ring
      omega
    · rw [if_pos hc] at hshift
      simp only [JS.divide, han, if_false, hshift, Int.toNat_ofNat, Int.toNat_neg_nat,
        pow_zero, mul_one]
  · refine ⟨K0, by omega, by omega, hupp, ?_⟩
    rw [if_neg hc] at hshift
    simp only [JS.divide, han, if_false, hshift, Int.toNat_ofNat, Int.toNat_neg_nat, pow_zero,
      mul_one]

theorem roundHalfEven_error (num den : Nat) (hden : 0 < den) :
    2 * (JS.roundHalfEven num den * den) ≤ 2 * num + den ∧
      2 * num ≤ 2 * (JS.roundHalfEven num den * den) + den := by
  have hdm := Nat.div_add_mod num den
  have hmod := Nat.mod_lt num hden
  have hq : (num / den + 1) * den = den * (num / den) + den := by ring
  have hq0 : num / den * den = den * (num / den) := by ring
  unfold JS.roundHalfEven
  simp only []
  split
  · rw [hq0]; omega
  · split
    · rw [hq]; omega
    · split
      · rw [hq0]; omega
      · rw [hq]; omega

theorem toFixedDigits_scaled (m K : Nat) (hK : 0 < K) :
    JS.toFixedDigits ⟨m, -(K : Int)⟩ = (20 * m + 2 ^ K) / (2 * 2 ^ K) := by
  have hneg : ¬ (0 : Int) ≤ -(K : Int) := by omega
  simp only [JS.toFixedDigits, hneg, if_false, neg_neg, Int.toNat_ofNat]

/-- Arithmetic core of toFixed(1) after division: m approximates a * D / b within one half,
D exceeds 10 * b, and 20 * a + b = 2 * b * h + r with r < 2 * b. Off a tie (r not 0) the digit
is h; on a tie it is h when m is not below a * D / b, and h - 1 when it is below. -/
theorem tenths_of_approx (a b m D h r : Nat) (hb : 0 < b) (hD : 10 * b < D)
    (hlo : 2 * (m * b) ≤ 2 * (a * D) + b) (hhi : 2 * (a * D) ≤ 2 * (m * b) + b)
    (hdm : 2 * b * h + r = 20 * a + b) (hr : r < 2 * b) :
    (r ≠ 0 → (20 * m + D) / (2 * D) = h) ∧
    (r = 0 → a * D ≤ m * b → (20 * m + D) / (2 * D) = h) ∧
    (r = 0 → m * b < a * D → (20 * m + D) / (2 * D) + 1 = h) := by
  have e1 : (20 * m + D) * b = 20 * (m * b) + D * b := by ring
  have e2 : h * (2 * D) * b = 2 * (h * D * b) := by ring
  have e3 : (h + 1) * (2 * D) * b = 2 * (h * D * b) + 2 * (D * b) := by ring
  have e4 : 2 * (h * D * b) + r * D = 20 * (a * D) + D * b := by
    calc 2 * (h * D * b) + r * D = (2 * b * h + r) * D := by ring
      _ = (20 * a + b) * D := by rw [hdm]
      _ = 20 * (a * D) + D * b := by ring
  have e5 : 10 * b ≤ D * b := Nat.mul_le_mul_right b (by omega)
  refine ⟨?_, ?_, ?_⟩
  · intro hr0
    have hR1 : D ≤ r * D := Nat.le_mul_of_pos_left D (by omega)
    have hR2 : r * D + D ≤ 2 * (D * b) := by
      have h1 : (r + 1) * D ≤ (2 * b) * D := Nat.mul_le_mul_right D (by omega)
      have h2 : (r + 1) * D = r * D + D := by ring
      have h3 : (2 * b) * D = 2 * (D * b) := by ring
      omega
    apply Nat.div_eq_of_lt_le
    · apply Nat.le_of_mul_le_mul_right _ hb
      rw [e1, e2]
      omega
    · apply Nat.lt_of_mul_lt_mul_right (a := b)
      rw [e1, e3]
      omega
  · intro hr0 hup
    subst hr0
    apply Nat.div_eq_of_lt_le
    · apply Nat.le_of_mul_le_mul_right _ hb
      rw [e1, e2]
      omega
    · apply Nat.lt_of_mul_lt_mul_right (a := b)
      rw [e1, e3]
      omega
  · intro hr0 hdown
    subst hr0
    have hhpos : 0 < h := by
      rcases Nat.eq_zero_or_pos h with h0 | h0
      · subst h0; omega
      · exact h0
    obtain ⟨h', rfl⟩ : ∃ h', h = h' + 1 := ⟨h - 1, by omega⟩
    have e6 : (h' + 1) * D * b = h' * D * b + D * b := by ring
    have e7 : (h' + 1) * (2 * D) * b = 2 * (h' * D * b) + 2 * (D * b) := by ring
    have e8 : h' * (2 * D) * b = 2 * (h' * D * b) := by ring
    have : (20 * m + D) / (2 * D) = h' := by
      apply Nat.div_eq_of_lt_le
      · apply Nat.le_of_mul_le_mul_right _ hb
        rw [e1, e8]
        omega
      · apply Nat.lt_of_mul_lt_mul_right (a := b)
        rw [e1, e7]
        omega
    omega

theorem below_scaled (m K a b : Nat) (hK : 0 < K) :
    JS.Float64.below ⟨m, -(K : Int)⟩ a b ↔ m * b < a * 2 ^ K := by
  have hneg : ¬ (0 : Int) ≤ -(K : Int) := by omega
  simp only [JS.Float64.below, hneg, if_false, neg_neg, Int.toNat_ofNat]

/-- The digit shown for the binary64 quotient of a by b (a at most 100 * b, b below 2^32):
off a tie it is the exact quotient rounded to one decimal; on a tie it is the upper value when
the binary64 quotient is not below the exact one, the value under it when it is below. -/
theorem toFixedDigits_divide (a b : Nat) (hb : 0 < b) (hab : a ≤ 100 * b)
    (hlen : b < 2 ^ 32) :
    (¬ exactTie a b → JS.toFixedDigits (JS.divide a b) = halfAwayTenths a b) ∧
    (exactTie a b → ¬ JS.Float64.below (JS.divide a b) a b →
      JS.toFixedDigits (JS.divide a b) = halfAwayTenths a b) ∧
    (exactTie a b → JS.Float64.below (JS.divide a b) a b →
      JS.toFixedDigits (JS.divide a b) + 1 = halfAwayTenths a b) := by
  rcases Nat.eq_zero_or_pos a with ha | ha
  · subst ha
    have h0 : JS.toFixedDigits (JS.divide 0 b) = 0 := by
      simp [JS.divide, JS.toFixedDigits]
    have h1 : halfAwayTenths 0 b = 0 := by
      unfold halfAwayTenths
      exact Nat.div_eq_of_lt (by omega)
    have hnt : ¬ exactTie 0 b := by
      show ¬ (20 * 0 + b) % (2 * b) = 0
      rw [Nat.mul_zero, Nat.zero_add, Nat.mod_eq_of_lt (by omega)]
      omega
    rw [h0, h1]
    exact ⟨fun _ => rfl, fun _ _ => rfl, fun ht _ => absurd ht hnt⟩
  · obtain ⟨K, hK, -, -, hdiv⟩ := divide_normal a b ha hb hab
    have hD : 10 * b < 2 ^ K := by
      have h1 : 2 ^ 45 ≤ 2 ^ K := Nat.pow_le_pow_right (by norm_num) hK
      have h2 : 10 * b < 2 ^ 45 := by
        have : (2 : Nat) ^ 45 = 2 ^ 32 * 8192 := by norm_num
        omega
      omega
    have herr := roundHalfEven_error (a * 2 ^ K) b hb
    have hcore := tenths_of_approx a b (JS.roundHalfEven (a * 2 ^ K) b) (2 ^ K)
      ((20 * a + b) / (2 * b)) ((20 * a + b) % (2 * b))
      hb hD herr.1 herr.2 (Nat.div_add_mod _ _) (Nat.mod_lt _ (by omega))
    rw [hdiv, toFixedDigits_scaled _ K (by omega), below_scaled _ K a b (by omega)]
    unfold halfAwayTenths
    refine ⟨hcore.1, ?_, ?_⟩
    · intro ht hup
      exact hcore.2.1 ht (by omega)
    · intro ht hdown
      exact hcore.2.2 ht hdown

/-- A mean that is a multiple of one quarter is a binary64 number: the quotient is exact, so it
is not below the mean. -/
theorem divide_quarter_exact (a b : Nat) (hb : 0 < b) (hab : a ≤ 100 * b)
    (hq : (4 * a) % b = 0) : ¬ JS.Float64.below (JS.divide a b) a b := by
  rcases Nat.eq_zero_or_pos a with ha | ha
  · subst ha
    simp [JS.divide, JS.Float64.below]
  · obtain ⟨K, hK, -, -, hdiv⟩ := divide_normal a b ha hb hab
    rw [hdiv, below_scaled _ K a b (by omega)]
    obtain ⟨K2, rfl⟩ : ∃ K2, K = K2 + 2 := ⟨K - 2, by omega⟩
    have hdvd : b ∣ a * 2 ^ (K2 + 2) := by
      have h1 : a * 2 ^ (K2 + 2) = 4 * a * 2 ^ K2 := by rw [pow_add]; ring
      rw [h1]
      exact Dvd.dvd.mul_right (Nat.dvd_of_mod_eq_zero hq) _
    have hmod : (a * 2 ^ (K2 + 2)) % b = 0 := Nat.mod_eq_zero_of_dvd hdvd
    have hround : JS.roundHalfEven (a * 2 ^ (K2 + 2)) b = a * 2 ^ (K2 + 2) / b := by
      unfold JS.roundHalfEven
      simp only [hmod]
      rw [if_pos (by omega)]
    rw [hround, Nat.div_mul_cancel hdvd]
    omega

theorem foldl_marks (l : List Student) :
    ∀ acc : Int, l.foldl (fun sum student => sum + student.marks) acc
      = acc + (l.map (fun student => student.marks)).sum := by
  induction l with
  | nil => intro acc; simp
  | cons a l ih =>
    intro acc
    rw [List.foldl_cons, ih, List.map_cons, List.sum_cons]
    omega

theorem sum_marks_bounds (l : List Student) (h : ∀ st ∈ l, 0 ≤ st.marks ∧ st.marks ≤ 100) :
    0 ≤ (l.map (fun student => student.marks)).sum ∧
      (l.map (fun student => student.marks)).sum ≤ 100 * (l.length : Int) := by
  induction l with
  | nil => simp
  | cons a l ih =>
    have ha := h a (List.mem_cons_self _ _)
    have hl := ih (fun st hst => h st (List.mem_cons_of_mem _ hst))
    rw [List.map_cons, List.sum_cons, List.length_cons]
    push_cast
    omega

theorem total_eq_sum (s : StudentMarksSystem) :
    s.total = (s.students.map (fun student => student.marks)).sum := by
  unfold StudentMarksSystem.total
  rw [foldl_marks]
  omega

theorem toString_digit_length (d : Nat) (hd : d < 10) : (toString d).length = 1 := by
  interval_cases d <;> rfl

/-- C7 as amended: on a roster whose marks lie in 0..100 (with fewer than 2^32 records, the
bound of an array), showAverage on a non-empty roster succeeds, leaves the roster unchanged and
shows the sum of the marks divided by the count as formatted by toFixed(1) on the binary64
quotient, always with one fractional digit. The text is the mean rounded to one decimal place
whenever the exact mean is not halfway between two one-decimal values. When it is exactly
halfway, the binary64 quotient decides: if the quotient is not below the exact mean the tie
goes half away from zero, and that is the case whenever the mean is a multiple of one quarter,
which binary64 holds exactly; if the quotient is below the exact mean, the text is the
one-decimal value just under it. On an empty roster showAverage reports the no-students error
and changes nothing else. -/
theorem showAverage_rounding (s : StudentMarksSystem)
    (hmarks : ∀ st ∈ s.students, 0 ≤ st.marks ∧ st.marks ≤ 100)
    (hlen : s.students.length < 2 ^ 32) :
    (s.students ≠ [] →
      s.showAverage.resultType = ResultType.success ∧
      s.showAverage.resultText = "Class average: " ++ s.average ++ " marks" ∧
      s.showAverage.students = s.students ∧
      s.total = (s.students.map (fun student => student.marks)).sum ∧
      (∃ n : Nat, s.average = toString (n / 10) ++ "." ++ toString (n % 10) ∧
        (toString (n % 10)).length = 1) ∧
      (¬ exactTie s.total.toNat s.students.length → s.average = specAverage s) ∧
      (exactTie s.total.toNat s.students.length →
        s.average = specAverage s ∨
        s.average = JS.oneDecimal (halfAwayTenths s.total.toNat s.students.length - 1)) ∧
      s.average = JS.oneDecimal s.averageTenths ∧
      (¬ exactTie s.total.toNat s.students.length →
        s.averageTenths = halfAwayTenths s.total.toNat s.students.length) ∧
      (exactTie s.total.toNat s.students.length → ¬ s.quotientBelow →
        s.averageTenths = halfAwayTenths s.total.toNat s.students.length ∧
        s.average = specAverage s) ∧
      (exactTie s.total.toNat s.students.length → s.quotientBelow →
        s.averageTenths + 1 = halfAwayTenths s.total.toNat s.students.length ∧
        s.average = JS.oneDecimal (halfAwayTenths s.total.toNat s.students.length - 1)) ∧
      (exactTie s.total.toNat s.students.length → (4 * s.total.toNat) % s.students.length = 0 →
        ¬ s.quotientBelow ∧
        s.averageTenths = halfAwayTenths s.total.toNat s.students.length ∧
        s.average = specAverage s)) ∧
    (s.students = [] →
      s.showAverage.resultType = ResultType.error ∧
      s.showAverage.resultText = "No students to calculate average!" ∧
      s.showAverage.students = s.students) := by
  constructor
  · intro hne
    have hlen0 : s.students.length ≠ 0 := fun h0 => hne (List.length_eq_zero.mp h0)
    have hsum := sum_marks_bounds s.students hmarks
    rw [← total_eq_sum] at hsum
    have hnonneg : ¬ s.total < 0 := by omega
    have habs : s.total.natAbs = s.total.toNat := by omega
    have hab : s.total.toNat ≤ 100 * s.students.length := by omega
    have hten : s.averageTenths
        = JS.toFixedDigits (JS.divide s.total.toNat s.students.length) := by
      unfold StudentMarksSystem.averageTenths
      rw [habs]
    have hbelow : s.quotientBelow ↔
        JS.Float64.below (JS.divide s.total.toNat s.students.length) s.total.toNat
          s.students.length := by
      unfold StudentMarksSystem.quotientBelow
      rw [habs]
    have havg : s.average = JS.oneDecimal s.averageTenths := by
      simp [StudentMarksSystem.average, StudentMarksSystem.averageTenths, JS.toFixed, hnonneg]
    have hspec : specAverage s
        = JS.oneDecimal (halfAwayTenths s.total.toNat s.students.length) := rfl
    have hcore := toFixedDigits_divide s.total.toNat s.students.length (by omega) hab hlen
    rw [← hten, ← hbelow] at hcore
    have hup : exactTie s.total.toNat s.students.length → ¬ s.quotientBelow →
        s.averageTenths = halfAwayTenths s.total.toNat s.students.length ∧
        s.average = specAverage s := by
      intro ht hb
      have h := hcore.2.1 ht hb
      exact ⟨h, by rw [havg, h, hspec]⟩
    have hdown : exactTie s.total.toNat s.students.length → s.quotientBelow →
        s.averageTenths + 1 = halfAwayTenths s.total.toNat s.students.length ∧
        s.average = JS.oneDecimal (halfAwayTenths s.total.toNat s.students.length - 1) := by
      intro ht hb
      have h := hcore.2.2 ht hb
      exact ⟨h, by rw [havg, ← h]; rfl⟩
    refine ⟨?_, ?_, StudentMarksSystem.students_showAverage s, total_eq_sum s, ?_, ?_, ?_,
      havg, hcore.1, hup, hdown, ?_⟩
    · simp [StudentMarksSystem.showAverage, hlen0, StudentMarksSystem.showResult]
    · simp [StudentMarksSystem.showAverage, hlen0, StudentMarksSystem.showResult,
        StudentMarksSystem.clearHighlights]
    · exact ⟨_, havg, toString_digit_length _ (Nat.mod_lt _ (by norm_num))⟩
    · intro htie
      rw [havg, hcore.1 htie, hspec]
    · intro htie
      by_cases hb : s.quotientBelow
      · exact Or.inr (hdown htie hb).2
      · exact Or.inl (hup htie hb).2
    · intro htie hq
      have hnb : ¬ s.quotientBelow := by
        rw [hbelow]
        exact divide_quarter_exact s.total.toNat s.students.length (by omega) hab hq
      exact ⟨hnb, hup htie hnb⟩
  · intro hnil
    simp [StudentMarksSystem.showAverage, hnil, StudentMarksSystem.showResult]

/-- Counterexample to C7 as stated: after the sample roster is emptied and twenty students
with marks 3, 0, ..., 0 are entered, the exact mean is 3 / 20 = 0.15, a tie, which rounded
half away from zero is 0.2; showAverage shows 0.1, because the binary64 quotient 3 / 20 lies
just below 0.15. -/
theorem showAverage_tie_rounds_down :
    (run asciiRuntime blankPage tieEvents).students = tieStudents ∧
      (run asciiRuntime blankPage tieEvents).students.length = 20 ∧
      (run asciiRuntime blankPage tieEvents).total = 3 ∧
      exactTie 3 20 ∧
      specAverage (run asciiRuntime blankPage tieEvents) = "0.2" ∧
      (run asciiRuntime blankPage tieEvents).average = "0.1" ∧
      (run asciiRuntime blankPage tieEvents).showAverage.resultText
        = "Class average: 0.1 marks" ∧
      (run asciiRuntime blankPage tieEvents).average
        ≠ specAverage (run asciiRuntime blankPage tieEvents) := by
  decide

/-- Witness for the amended C7: the sample roster has mean 436 / 5 = 87.2 and shows 87.2; the
two students with marks 85 and 95 show 90.0; the ties 1 / 4 and 349 / 4, which binary64 holds
exactly, show 0.3 and 87.3; the tie 3 / 20, whose binary64 quotient is below it, shows 0.1. -/
theorem showAverage_rounding_witness :
    (∀ st ∈ sampleSystem.students, 0 ≤ st.marks ∧ st.marks ≤ 100) ∧
      sampleSystem.students.length < 2 ^ 32 ∧
      sampleSystem.students ≠ [] ∧
      ¬ exactTie sampleSystem.total.toNat sampleSystem.students.length ∧
      sampleSystem.average = specAverage sampleSystem ∧
      sampleSystem.showAverage.resultText = "Class average: 87.2 marks" ∧
      (run asciiRuntime blankPage pairEvents).students = [⟨"Amit", 85⟩, ⟨"Karan", 95⟩] ∧
      (run asciiRuntime blankPage pairEvents).showAverage.resultText
        = "Class average: 90.0 marks" ∧
      exactTie 1 4 ∧ ¬ (run asciiRuntime blankPage quarterEvents).quotientBelow ∧
      (run asciiRuntime blankPage quarterEvents).showAverage.resultText
        = "Class average: 0.3 marks" ∧
      exactTie 349 4 ∧ ¬ (run asciiRuntime blankPage threeQuarterEvents).quotientBelow ∧
      (run asciiRuntime blankPage threeQuarterEvents).showAverage.resultText
        = "Class average: 87.3 marks" ∧
      exactTie 3 20 ∧ (run asciiRuntime blankPage tieEvents).quotientBelow ∧
      (run asciiRuntime blankPage tieEvents).average = "0.1" :=
  have h := (showAverage_rounding sampleSystem (by decide) (by decide)).1 (by decide)
  have hq := (showAverage_rounding (run asciiRuntime blankPage quarterEvents) (by decide)
    (by decide)).1 (by decide)
  ⟨by decide, by decide, by decide, by decide, h.2.2.2.2.2.1 (by decide), by decide,
    by decide, by decide, by decide, (hq.2.2.2.2.2.2.2.2.2.2.2 (by decide) (by decide)).1,
    by decide, by decide, by decide, by decide, by decide, by decide, by decide⟩
